import Mathlib

/-!
# Verification of the crossplane-explorer resource tree, session and live-diff core

Shallow embedding of the TypeScript sources of the `crossplane-explorer`
VS Code extension (`src/extension.ts`, `src/crossplaneExplorer.ts`,
`src/utils.ts` and their revisions).  Parsed YAML/JSON documents are
modelled by the inductive type `Json`; JavaScript objects are association
lists of string keys (JSON never produces duplicate keys), JS `undefined`
is modelled by `Option.none`, and JS truthiness by `jsTruthy`.
-/

/-- A JSON/YAML value as produced by `JSON.parse` / `yaml.load`.
Numbers are modelled as integers (the cluster objects manipulated by the
extension only carry integral numbers; nothing in the verified code does
arithmetic on them). -/
inductive Json where
  | null
  | bool (b : Bool)
  | num (n : Int)
  | str (s : String)
  | arr (elems : List Json)
  | obj (fields : List (String × Json))
deriving Repr

mutual

def jsonDecEq : (a b : Json) → Decidable (a = b)
  | .null, .null => isTrue rfl
  | .bool a, .bool b =>
    if h : a = b then isTrue (by rw [h]) else isFalse (by simp [h])
  | .num a, .num b =>
    if h : a = b then isTrue (by rw [h]) else isFalse (by simp [h])
  | .str a, .str b =>
    if h : a = b then isTrue (by rw [h]) else isFalse (by simp [h])
  | .arr a, .arr b =>
    match jsonListDecEq a b with
    | isTrue h => isTrue (by rw [h])
    | isFalse h => isFalse (by simp [h])
  | .obj a, .obj b =>
    match jsonObjDecEq a b with
    | isTrue h => isTrue (by rw [h])
    | isFalse h => isFalse (by simp [h])
  | .null, .bool _ | .null, .num _ | .null, .str _ | .null, .arr _ | .null, .obj _
  | .bool _, .null | .bool _, .num _ | .bool _, .str _ | .bool _, .arr _ | .bool _, .obj _
  | .num _, .null | .num _, .bool _ | .num _, .str _ | .num _, .arr _ | .num _, .obj _
  | .str _, .null | .str _, .bool _ | .str _, .num _ | .str _, .arr _ | .str _, .obj _
  | .arr _, .null | .arr _, .bool _ | .arr _, .num _ | .arr _, .str _ | .arr _, .obj _
  | .obj _, .null | .obj _, .bool _ | .obj _, .num _ | .obj _, .str _ | .obj _, .arr _ =>
    isFalse (by intro h; exact Json.noConfusion h)

def jsonListDecEq : (a b : List Json) → Decidable (a = b)
  | [], [] => isTrue rfl
  | [], _ :: _ => isFalse (by simp)
  | _ :: _, [] => isFalse (by simp)
  | x :: xs, y :: ys =>
    match jsonDecEq x y with
    | isFalse h => isFalse (by simp [h])
    | isTrue h =>
      match jsonListDecEq xs ys with
      | isTrue h2 => isTrue (by rw [h, h2])
      | isFalse h2 => isFalse (by simp [h2])

def jsonObjDecEq : (a b : List (String × Json)) → Decidable (a = b)
  | [], [] => isTrue rfl
  | [], _ :: _ => isFalse (by simp)
  | _ :: _, [] => isFalse (by simp)
  | (k, v) :: xs, (k', v') :: ys =>
    if hk : k = k' then
      match jsonDecEq v v' with
      | isFalse h => isFalse (by simp [h])
      | isTrue h =>
        match jsonObjDecEq xs ys with
        | isTrue h2 => isTrue (by rw [hk, h, h2])
        | isFalse h2 => isFalse (by simp [h2])
    else isFalse (by simp [hk])

end

instance : DecidableEq Json := jsonDecEq

/-- JavaScript truthiness of a value (`undefined` is handled by `Option`
at use sites): `null`, `false`, `0` and `""` are falsy, everything else
(including `{}` and `[]`) is truthy. -/
def jsTruthy : Json → Bool
  | .null => false
  | .bool b => b
  | .num n => n != 0
  | .str s => s != ""
  | .arr _ => true
  | .obj _ => true

/-- Truthiness of a possibly-`undefined` value. -/
def jsTruthyO : Option Json → Bool
  | none => false
  | some j => jsTruthy j

/-- First binding of key `k` in an association list (JS property read;
JSON objects never carry duplicate keys). -/
def lookupJ : List (String × Json) → String → Option Json
  | [], _ => none
  | (k, v) :: t, key => if k = key then some v else lookupJ t key

/-- JS property access `j[k]`: `none` models `undefined` (missing key or
access on a non-object). -/
def jget (j : Json) (k : String) : Option Json :=
  match j with
  | .obj l => lookupJ l k
  | _ => none

/-- `delete o[k]` on an association list. -/
def eraseJ (l : List (String × Json)) (k : String) : List (String × Json) :=
  l.filter (fun kv => kv.1 ≠ k)

/-- `o[k] = v`: replace the binding in place (JS keeps the original
property position), append if absent. -/
def setJ : List (String × Json) → String → Json → List (String × Json)
  | [], key, v => [(key, v)]
  | (k, w) :: t, key, v => if k = key then (k, v) :: t else (k, w) :: setJ t key v

/-- `delete j.k` at the top level of a value; a no-op on non-objects
(the call sites guard the value to be an object). -/
def deleteProp (j : Json) (k : String) : Json :=
  match j with
  | .obj l => .obj (eraseJ l k)
  | _ => j

/-- Rewrite the value stored under key `k` (used to model in-place
mutation of a sub-object); no-op if `j` is not an object or `k` absent. -/
def mapProp (j : Json) (k : String) (f : Json → Json) : Json :=
  match j with
  | .obj l =>
    match lookupJ l k with
    | some v => .obj (setJ l k (f v))
    | none => .obj l
  | _ => j

/-- The `kubectl.kubernetes.io/last-applied-configuration` annotation key. -/
def laConfigKey : String := "kubectl.kubernetes.io/last-applied-configuration"

/-!
## Edit-mode sanitization (`extension.ts`, `editResource` handler, lines 255-268)

```ts
if (resourceYaml && resourceYaml.metadata) {
    delete resourceYaml.metadata.uid;
    delete resourceYaml.metadata.resourceVersion;
    delete resourceYaml.metadata.creationTimestamp;
    delete resourceYaml.metadata.managedFields;
    delete resourceYaml.metadata.annotations?.['kubectl.kubernetes.io/last-applied-configuration'];
}
delete resourceYaml.status;
```
-/

/-- The five `delete` statements applied to the `metadata` sub-object.
The optional chain `annotations?.[...]` only deletes when `annotations`
is an object (on `null`/`undefined` it short-circuits; a `delete` on a
primitive's property is a JS no-op). -/
def cleanMetadata (m : Json) : Json :=
  let m := deleteProp m "uid"
  let m := deleteProp m "resourceVersion"
  let m := deleteProp m "creationTimestamp"
  let m := deleteProp m "managedFields"
  match jget m "annotations" with
  | some (.obj a) => mapProp m "annotations" (fun _ => .obj (eraseJ a laConfigKey))
  | _ => m

/-- Edit-mode sanitization of a fetched resource (the body of the
`crossplane-explorer.editResource` handler between `yaml.load` and
`yaml.dump`).  `delete resourceYaml.status` would throw on
`null`/`undefined` input in JS; the claims only concern object inputs, on
which this model is exact. -/
def cleanResourceYaml (resourceYaml : Json) : Json :=
  let j :=
    if jsTruthy resourceYaml && jsTruthyO (jget resourceYaml "metadata") then
      mapProp resourceYaml "metadata" cleanMetadata
    else resourceYaml
  deleteProp j "status"

/-!
## Live-diff cleaning (`extension.ts`, `cleanK8sObject`, lines 535-549)

```ts
function cleanK8sObject(obj: any): any {
    if (!obj) { return obj; }
    const copy = JSON.parse(JSON.stringify(obj));
    if (copy.metadata) { delete copy.metadata.managedFields; ... delete copy.metadata.uid; }
    if (copy.status) { delete copy.status.conditions; }
    return copy;
}
```
`JSON.parse(JSON.stringify x)` is the identity on the `Json` model. -/
def cleanK8sMeta (m : Json) : Json :=
  let m := deleteProp m "managedFields"
  let m := deleteProp m "resourceVersion"
  let m := deleteProp m "creationTimestamp"
  let m := deleteProp m "generation"
  deleteProp m "uid"

/-- The `if (copy.status) { delete copy.status.conditions }` step. -/
def cleanK8sStatus (st : Json) : Json :=
  deleteProp st "conditions"

/-- The `if (copy.metadata) { ... }` block. -/
def cleanK8sMetaStep (copy : Json) : Json :=
  if jsTruthyO (jget copy "metadata") then
    mapProp copy "metadata" cleanK8sMeta
  else copy

/-- The `if (copy.status) { ... }` block. -/
def cleanK8sStatusStep (copy : Json) : Json :=
  if jsTruthyO (jget copy "status") then
    mapProp copy "status" cleanK8sStatus
  else copy

def cleanK8sObject (obj : Json) : Json :=
  if !jsTruthy obj then obj
  else cleanK8sStatusStep (cleanK8sMetaStep obj)

-- Basic association-list lemmas

theorem lookupJ_eraseJ_self (l : List (String × Json)) (k : String) :
    lookupJ (eraseJ l k) k = none := by
  induction l with
  | nil => rfl
  | cons kv t ih =>
    by_cases h : kv.1 = k
    · simpa [eraseJ, h] using (by simpa [eraseJ] using ih)
    · cases kv with
      | mk k' v => simp_all [eraseJ, lookupJ]

theorem eraseJ_eraseJ (l : List (String × Json)) (k : String) :
    eraseJ (eraseJ l k) k = eraseJ l k := by
  simp [eraseJ, List.filter_filter]

theorem lookupJ_setJ_self (l : List (String × Json)) (k : String) (v : Json) :
    lookupJ (setJ l k v) k = some v := by
  induction l with
  | nil => simp [setJ, lookupJ]
  | cons kv t ih =>
    cases kv with
    | mk k' w =>
      by_cases h : k' = k
      · simp [setJ, lookupJ, h]
      · simp [setJ, lookupJ, h, ih]

theorem lookupJ_setJ_ne (l : List (String × Json)) (k k' : String) (v : Json)
    (h : k ≠ k') : lookupJ (setJ l k v) k' = lookupJ l k' := by
  induction l with
  | nil => simp [setJ, lookupJ, h]
  | cons kv t ih =>
    cases kv with
    | mk k0 w =>
      by_cases h0 : k0 = k
      · subst h0; simp [setJ, lookupJ, h]
      · simp [setJ, lookupJ, h0, ih]

theorem lookupJ_eraseJ_ne (l : List (String × Json)) (k k' : String)
    (h : k' ≠ k) : lookupJ (eraseJ l k) k' = lookupJ l k' := by
  induction l with
  | nil => rfl
  | cons kv t ih =>
    cases kv with
    | mk k0 w =>
      by_cases h0 : k0 = k
      · subst h0
        have he : eraseJ ((k0, w) :: t) k0 = eraseJ t k0 := by simp [eraseJ]
        rw [he, ih]
        simp [lookupJ, Ne.symm h]
      · have he : eraseJ ((k0, w) :: t) k = (k0, w) :: eraseJ t k := by
          simp [eraseJ, h0]
        rw [he]
        by_cases h1 : k0 = k'
        · simp [lookupJ, h1]
        · simp [lookupJ, h1, ih]

theorem setJ_eq_of_lookupJ (l : List (String × Json)) (k : String) (v : Json)
    (h : lookupJ l k = some v) : setJ l k v = l := by
  induction l with
  | nil => simp [lookupJ] at h
  | cons kv t ih =>
    cases kv with
    | mk k0 w =>
      by_cases h0 : k0 = k
      · subst h0
        simp [lookupJ] at h
        simp [setJ, h]
      · simp [lookupJ, h0] at h
        simp [setJ, h0, ih h]

/-- `mapProp` leaves truthiness unchanged. -/
theorem jsTruthy_mapProp (j : Json) (k : String) (f : Json → Json) :
    jsTruthy (mapProp j k f) = jsTruthy j := by
  cases j <;> simp [mapProp, jsTruthy]
  case obj l => cases lookupJ l k <;> simp [jsTruthy]

/-- `deleteProp` leaves truthiness unchanged. -/
theorem jsTruthy_deleteProp (j : Json) (k : String) :
    jsTruthy (deleteProp j k) = jsTruthy j := by
  cases j <;> simp [deleteProp, jsTruthy]

theorem jsTruthy_cleanK8sMeta (m : Json) :
    jsTruthy (cleanK8sMeta m) = jsTruthy m := by
  simp [cleanK8sMeta, jsTruthy_deleteProp]

theorem jsTruthy_cleanK8sStatus (st : Json) :
    jsTruthy (cleanK8sStatus st) = jsTruthy st := by
  simp [cleanK8sStatus, jsTruthy_deleteProp]

theorem cleanK8sMeta_idem (m : Json) : cleanK8sMeta (cleanK8sMeta m) = cleanK8sMeta m := by
  cases m <;> simp [cleanK8sMeta, deleteProp]
  case obj l =>
    simp [eraseJ, List.filter_filter]
    apply List.filter_congr
    intro a _
    by_cases h1 : a.1 = "managedFields" <;>
      by_cases h2 : a.1 = "resourceVersion" <;>
        by_cases h3 : a.1 = "creationTimestamp" <;>
          by_cases h4 : a.1 = "generation" <;>
            by_cases h5 : a.1 = "uid" <;>
              simp [h1, h2, h3, h4, h5]

theorem cleanK8sStatus_idem (st : Json) :
    cleanK8sStatus (cleanK8sStatus st) = cleanK8sStatus st := by
  cases st <;> simp [cleanK8sStatus, deleteProp]
  case obj l => simp [eraseJ_eraseJ]



theorem setJ_setJ_self (l : List (String × Json)) (k : String) (a b : Json) :
    setJ (setJ l k a) k b = setJ l k b := by
  induction l with
  | nil => simp [setJ]
  | cons kv t ih =>
    cases kv with
    | mk k0 w =>
      by_cases h : k0 = k
      · simp [setJ, h]
      · simp [setJ, h, ih]

theorem setJ_setJ_comm (l : List (String × Json)) (k k' : String) (a b : Json)
    (h : k ≠ k') (hk : (lookupJ l k').isSome) :
    setJ (setJ l k a) k' b = setJ (setJ l k' b) k a := by
  induction l with
  | nil => simp [lookupJ] at hk
  | cons kv t ih =>
    cases kv with
    | mk k0 w =>
      by_cases h0 : k0 = k
      · subst h0
        simp [setJ, h, Ne.symm h]
      · by_cases h1 : k0 = k'
        · subst h1
          simp [setJ, h0, Ne.symm h]
        · have hk' : (lookupJ t k').isSome := by
            simpa [lookupJ, h1] using hk
          simp [setJ, h0, h1, ih hk']

theorem jget_mapProp_self (x : Json) (k : String) (f : Json → Json) :
    jget (mapProp x k f) k = (jget x k).map f := by
  cases x <;> simp [mapProp, jget]
  case obj l =>
    cases h : lookupJ l k with
    | none => simp [jget, h]
    | some v => simp [jget, lookupJ_setJ_self]

theorem jget_mapProp_ne (x : Json) (k k' : String) (f : Json → Json)
    (h : k ≠ k') : jget (mapProp x k f) k' = jget x k' := by
  cases x <;> simp [mapProp, jget]
  case obj l =>
    cases hm : lookupJ l k with
    | none => simp [jget]
    | some v => simp [jget, lookupJ_setJ_ne _ _ _ _ h]

theorem mapProp_mapProp_self (x : Json) (k : String) (f g : Json → Json) :
    mapProp (mapProp x k f) k g = mapProp x k (fun v => g (f v)) := by
  cases x <;> simp [mapProp]
  case obj l =>
    cases h : lookupJ l k with
    | none => simp [mapProp, h]
    | some v => simp [mapProp, lookupJ_setJ_self, setJ_setJ_self]

theorem mapProp_mapProp_comm (x : Json) (k k' : String) (f g : Json → Json)
    (h : k ≠ k') : mapProp (mapProp x k f) k' g = mapProp (mapProp x k' g) k f := by
  cases x <;> simp [mapProp]
  case obj l =>
    cases h1 : lookupJ l k with
    | none =>
      cases h2 : lookupJ l k' with
      | none => simp [mapProp, h1, h2]
      | some w => simp [mapProp, h1, h2, lookupJ_setJ_ne _ _ _ _ (Ne.symm h)]
    | some v =>
      cases h2 : lookupJ l k' with
      | none => simp [mapProp, h1, h2, lookupJ_setJ_ne _ _ _ _ h]
      | some w =>
        have hsome : (lookupJ l k').isSome := by simp [h2]
        simp [mapProp, h1, h2, lookupJ_setJ_ne _ _ _ _ h,
          lookupJ_setJ_ne _ _ _ _ (Ne.symm h), setJ_setJ_comm _ _ _ _ _ h hsome]

theorem cleanK8sMetaStep_idem (x : Json) :
    cleanK8sMetaStep (cleanK8sMetaStep x) = cleanK8sMetaStep x := by
  unfold cleanK8sMetaStep
  cases hm : jget x "metadata" with
  | none => simp [jsTruthyO, hm]
  | some m =>
    by_cases hmt : jsTruthy m
    · have h2 : jget (mapProp x "metadata" cleanK8sMeta) "metadata" =
          some (cleanK8sMeta m) := by
        rw [jget_mapProp_self, hm]
        rfl
      simp only [jsTruthyO, hm, hmt, if_true, h2, jsTruthy_cleanK8sMeta,
        mapProp_mapProp_self]
      congr 1
      funext v
      exact cleanK8sMeta_idem v
    · simp [jsTruthyO, hm, hmt]

theorem cleanK8sStatusStep_idem (x : Json) :
    cleanK8sStatusStep (cleanK8sStatusStep x) = cleanK8sStatusStep x := by
  unfold cleanK8sStatusStep
  cases hs : jget x "status" with
  | none => simp [jsTruthyO, hs]
  | some st =>
    by_cases hst : jsTruthy st
    · have h2 : jget (mapProp x "status" cleanK8sStatus) "status" =
          some (cleanK8sStatus st) := by
        rw [jget_mapProp_self, hs]
        rfl
      simp only [jsTruthyO, hs, hst, if_true, h2, jsTruthy_cleanK8sStatus,
        mapProp_mapProp_self]
      congr 1
      funext v
      exact cleanK8sStatus_idem v
    · simp [jsTruthyO, hs, hst]

theorem cleanK8sSteps_comm (x : Json) :
    cleanK8sMetaStep (cleanK8sStatusStep x) = cleanK8sStatusStep (cleanK8sMetaStep x) := by
  unfold cleanK8sMetaStep cleanK8sStatusStep
  have hns : ("status" : String) ≠ "metadata" := by decide
  have hnm : ("metadata" : String) ≠ "status" := by decide
  cases hm : jget x "metadata" with
  | none =>
    cases hs : jget x "status" with
    | none => simp [jsTruthyO, hm, hs]
    | some st =>
      by_cases hst : jsTruthy st
      · simp [jsTruthyO, hm, hs, hst, jget_mapProp_ne _ _ _ _ hns]
      · simp [jsTruthyO, hm, hs, hst]
  | some m =>
    by_cases hmt : jsTruthy m
    · cases hs : jget x "status" with
      | none =>
        simp [jsTruthyO, hm, hs, hmt, jget_mapProp_ne _ _ _ _ hnm]
      | some st =>
        by_cases hst : jsTruthy st
        · have e1 : jget (mapProp x "status" cleanK8sStatus) "metadata" = some m := by
            rw [jget_mapProp_ne _ _ _ _ hns, hm]
          have e2 : jget (mapProp x "metadata" cleanK8sMeta) "status" = some st := by
            rw [jget_mapProp_ne _ _ _ _ hnm, hs]
          simp only [jsTruthyO, hm, hs, hmt, hst, if_true, e1, e2]
          exact mapProp_mapProp_comm _ _ _ _ _ hns
        · simp [jsTruthyO, hm, hs, hmt, hst, jget_mapProp_ne _ _ _ _ hnm]
    · cases hs : jget x "status" with
      | none => simp [jsTruthyO, hm, hs, hmt]
      | some st =>
        by_cases hst : jsTruthy st
        · have e1 : jget (mapProp x "status" cleanK8sStatus) "metadata" = some m := by
            rw [jget_mapProp_ne _ _ _ _ hns, hm]
          simp [jsTruthyO, hm, hs, hmt, hst, e1]
        · simp [jsTruthyO, hm, hs, hmt, hst]

theorem jsTruthy_cleanK8sMetaStep (x : Json) :
    jsTruthy (cleanK8sMetaStep x) = jsTruthy x := by
  unfold cleanK8sMetaStep
  split <;> simp [jsTruthy_mapProp]

theorem jsTruthy_cleanK8sStatusStep (x : Json) :
    jsTruthy (cleanK8sStatusStep x) = jsTruthy x := by
  unfold cleanK8sStatusStep
  split <;> simp [jsTruthy_mapProp]

theorem cleanK8sObject_eq_of_truthy (x : Json) (hx : jsTruthy x = true) :
    cleanK8sObject x = cleanK8sStatusStep (cleanK8sMetaStep x) := by
  simp [cleanK8sObject, hx]

/-- C6: the Live Diff cleaning step is idempotent:
`clean(clean(X)) == clean(X)` for every value `X`, where `clean` is
`cleanK8sObject` of `extension.ts` (it removes `metadata.managedFields`,
`metadata.resourceVersion`, `metadata.creationTimestamp`,
`metadata.generation`, `metadata.uid` and `status.conditions`). -/
theorem cleanK8sObject_idem (x : Json) :
    cleanK8sObject (cleanK8sObject x) = cleanK8sObject x := by
  by_cases hx : jsTruthy x
  · have htr : jsTruthy (cleanK8sStatusStep (cleanK8sMetaStep x)) = true := by
      rw [jsTruthy_cleanK8sStatusStep, jsTruthy_cleanK8sMetaStep]
      exact hx
    rw [cleanK8sObject_eq_of_truthy x hx, cleanK8sObject_eq_of_truthy _ htr,
      cleanK8sSteps_comm, cleanK8sStatusStep_idem, cleanK8sMetaStep_idem]
  · have hx' : jsTruthy x = false := by simpa using hx
    simp [cleanK8sObject, hx']

/-- C3: edit-mode sanitization completeness.  For every fetched object
whose `metadata` contains `uid`, `resourceVersion`, `creationTimestamp`,
`managedFields` and the `kubectl.kubernetes.io/last-applied-configuration`
annotation, and that has a `status` subtree, the output of the edit-mode
cleaning (`cleanResourceYaml`, from the `editResource` handler) contains
none of those metadata fields, no last-applied-configuration annotation,
and no top-level `status` key — whatever else the object contains. -/
theorem cleanResourceYaml_complete (j : Json) (lm la : List (String × Json))
    (hm : jget j "metadata" = some (.obj lm))
    (hann : lookupJ lm "annotations" = some (.obj la))
    (hst : (jget j "status").isSome) :
    ∃ lm' la',
      jget (cleanResourceYaml j) "metadata" = some (.obj lm') ∧
      lookupJ lm' "uid" = none ∧
      lookupJ lm' "resourceVersion" = none ∧
      lookupJ lm' "creationTimestamp" = none ∧
      lookupJ lm' "managedFields" = none ∧
      lookupJ lm' "annotations" = some (.obj la') ∧
      lookupJ la' laConfigKey = none ∧
      jget (cleanResourceYaml j) "status" = none := by
  cases j with
  | null => simp [jget] at hm
  | bool b => simp [jget] at hm
  | num n => simp [jget] at hm
  | str s => simp [jget] at hm
  | arr a => simp [jget] at hm
  | obj lj =>
    have hmj : lookupJ lj "metadata" = some (.obj lm) := by simpa [jget] using hm
    -- the four plain deletions on metadata
    have hcm : cleanMetadata (.obj lm) =
        .obj (setJ
          (eraseJ (eraseJ (eraseJ (eraseJ lm "uid") "resourceVersion")
            "creationTimestamp") "managedFields")
          "annotations" (.obj (eraseJ la laConfigKey))) := by
      have hlk : lookupJ
          (eraseJ (eraseJ (eraseJ (eraseJ lm "uid") "resourceVersion")
            "creationTimestamp") "managedFields") "annotations" = some (.obj la) := by
        rw [lookupJ_eraseJ_ne _ _ _ (by decide), lookupJ_eraseJ_ne _ _ _ (by decide),
          lookupJ_eraseJ_ne _ _ _ (by decide), lookupJ_eraseJ_ne _ _ _ (by decide), hann]
      simp [cleanMetadata, deleteProp, jget, hlk, mapProp]
    have hpre : cleanResourceYaml (.obj lj) =
        deleteProp (.obj (setJ lj "metadata" (cleanMetadata (.obj lm)))) "status" := by
      simp [cleanResourceYaml, jget, hmj, jsTruthyO, jsTruthy, mapProp]
    refine ⟨setJ
        (eraseJ (eraseJ (eraseJ (eraseJ lm "uid") "resourceVersion")
          "creationTimestamp") "managedFields")
        "annotations" (.obj (eraseJ la laConfigKey)),
      eraseJ la laConfigKey, ?_, ?_, ?_, ?_, ?_, ?_, ?_, ?_⟩
    · rw [hpre, hcm]
      simp only [deleteProp, jget]
      rw [lookupJ_eraseJ_ne _ _ _ (by decide), lookupJ_setJ_self]
    · rw [lookupJ_setJ_ne _ _ _ _ (by decide),
        lookupJ_eraseJ_ne _ _ _ (by decide), lookupJ_eraseJ_ne _ _ _ (by decide),
        lookupJ_eraseJ_ne _ _ _ (by decide), lookupJ_eraseJ_self]
    · rw [lookupJ_setJ_ne _ _ _ _ (by decide),
        lookupJ_eraseJ_ne _ _ _ (by decide), lookupJ_eraseJ_ne _ _ _ (by decide),
        lookupJ_eraseJ_self]
    · rw [lookupJ_setJ_ne _ _ _ _ (by decide),
        lookupJ_eraseJ_ne _ _ _ (by decide), lookupJ_eraseJ_self]
    · rw [lookupJ_setJ_ne _ _ _ _ (by decide), lookupJ_eraseJ_self]
    · rw [lookupJ_setJ_self]
    · exact lookupJ_eraseJ_self _ _
    · rw [hpre]
      simp only [deleteProp, jget]
      exact lookupJ_eraseJ_self _ _

/-- Witness for `cleanResourceYaml_complete` at a concrete resource. -/
theorem cleanResourceYaml_complete_witness :
    ∃ lm' la',
      jget (cleanResourceYaml (.obj [("apiVersion", .str "v1"),
        ("kind", .str "XNetwork"),
        ("metadata", .obj [("name", .str "net-a"), ("uid", .str "u-1"),
          ("resourceVersion", .str "42"), ("creationTimestamp", .str "2024-01-01"),
          ("managedFields", .arr []),
          ("annotations", .obj [(laConfigKey, .str "old"), ("team", .str "infra")])]),
        ("spec", .obj [("deep", .obj [("nested", .num 1)])]),
        ("status", .obj [("phase", .str "Ready")])])) "metadata" = some (.obj lm') ∧
      lookupJ lm' "uid" = none ∧
      lookupJ lm' "resourceVersion" = none ∧
      lookupJ lm' "creationTimestamp" = none ∧
      lookupJ lm' "managedFields" = none ∧
      lookupJ lm' "annotations" = some (.obj la') ∧
      lookupJ la' laConfigKey = none ∧
      jget (cleanResourceYaml (.obj [("apiVersion", .str "v1"),
        ("kind", .str "XNetwork"),
        ("metadata", .obj [("name", .str "net-a"), ("uid", .str "u-1"),
          ("resourceVersion", .str "42"), ("creationTimestamp", .str "2024-01-01"),
          ("managedFields", .arr []),
          ("annotations", .obj [(laConfigKey, .str "old"), ("team", .str "infra")])]),
        ("spec", .obj [("deep", .obj [("nested", .num 1)])]),
        ("status", .obj [("phase", .str "Ready")])])) "status" = none :=
  cleanResourceYaml_complete _
    [("name", .str "net-a"), ("uid", .str "u-1"),
     ("resourceVersion", .str "42"), ("creationTimestamp", .str "2024-01-01"),
     ("managedFields", .arr []),
     ("annotations", .obj [(laConfigKey, .str "old"), ("team", .str "infra")])]
    [(laConfigKey, .str "old"), ("team", .str "infra")]
    (by decide) (by decide) (by decide)

/-!
## Apply / annotate error classification (revision `part_000` of
`extension.ts`: `onDidSaveTextDocument` handler, lines 310-372, and
`crossplaneExplorer.pauseResource`, lines 715-753)

`executeCommand` / `executeCommandWithStdin` (`utils.ts`) resolve with
`{stdout, stderr}` when the subprocess exits 0 and reject with an `Error`
otherwise; a rejection lands in the handler's `catch` block.
-/

/-- Subprocess completion as seen by a handler. -/
inductive CmdResult where
  | resolve (stdout stderr : String)
  | reject (message : String)
deriving DecidableEq, Repr

/-- `s.includes(pat)` (JS `String.prototype.includes`): helper on
character lists, pattern-at-head test. -/
def listStartsWith : List Char → List Char → Bool
  | _, [] => true
  | [], _ :: _ => false
  | c :: cs, p :: ps => c = p && listStartsWith cs ps

/-- `s.includes(pat)` helper: contiguous-substring test. -/
def listContainsSub : List Char → List Char → Bool
  | [], p => p.isEmpty
  | c :: cs, p => listStartsWith (c :: cs) p || listContainsSub cs p

/-- JS `s.includes(pat)` (case-sensitive contiguous substring). -/
def jsIncludes (s pat : String) : Bool :=
  listContainsSub s.data pat.data

/-- JS `s.toLowerCase()` (the markers involved are ASCII). -/
def jsToLower (s : String) : String :=
  String.mk (s.data.map Char.toLower)

/-- Helper for `jsSplitSub`: split at each occurrence of the (non-empty)
pattern `p :: ps`; `skip` counts pattern characters still to consume
after a match (keeps the recursion structural, one character per step). -/
def splitSubGo (p : Char) (ps : List Char) : List Char → List Char → Nat → List String
  | [], cur, _ => [String.mk cur.reverse]
  | c :: rest, cur, skip =>
    if skip > 0 then splitSubGo p ps rest cur (skip - 1)
    else if listStartsWith (c :: rest) (p :: ps) then
      String.mk cur.reverse :: splitSubGo p ps rest [] ps.length
    else splitSubGo p ps rest (c :: cur) 0

/-- JS `s.split(sep)` for a literal separator (`"a/b".split('/') =
["a","b"]`, `"".split('/') = [""]`, empty segments kept). -/
def jsSplitSub (s pat : String) : List String :=
  match pat.data with
  | [] => [s]
  | p :: ps => splitSubGo p ps s.data [] 0

/-- JS `s.trim()` (ASCII whitespace suffices here). -/
def jsTrim (s : String) : String :=
  String.mk (((s.data.dropWhile Char.isWhitespace).reverse.dropWhile
    Char.isWhitespace).reverse)

/-- JS `s.startsWith(pat)`. -/
def jsStartsWith (s pat : String) : Bool :=
  listStartsWith s.data pat.data

/-- JS `s.endsWith(pat)`. -/
def jsEndsWith (s pat : String) : Bool :=
  listStartsWith s.data.reverse pat.data.reverse

/-- The permission-denial test applied to an apply/annotate error stream:
`stderr && (stderr.includes('forbidden') || stderr.toLowerCase().includes('permission'))`.
Note the `forbidden` test is on the raw stream (case-sensitive) while the
`permission` test is on the lowercased stream. -/
def isPermissionStderr (stderr : String) : Bool :=
  stderr != "" && (jsIncludes stderr "forbidden" || jsIncludes (jsToLower stderr) "permission")

/-- Outcome of the save-triggered apply flow (revision `part_000`,
lines 318-369).  `verified` covers the post-apply spec comparison:
`some true` = specs match (or a side absent), `some false` = both specs
present and different (mismatch warning), `none` = the verification fetch
threw ("Could not verify" warning, then the success notification). -/
inductive ApplyOutcome where
  | yamlError
  | permissionDenied (stderr : String)
  | verifyMismatch
  | verifyUnknown
  | applied
  | failedGeneric (message : String)
deriving DecidableEq, Repr

def applySaveOutcome (yamlValid : Bool) (cmd : CmdResult) (verified : Option Bool) :
    ApplyOutcome :=
  if !yamlValid then .yamlError
  else
    match cmd with
    | .reject msg => .failedGeneric msg
    | .resolve _ stderr =>
      if isPermissionStderr stderr then .permissionDenied stderr
      else
        match verified with
        | some false => .verifyMismatch
        | none => .verifyUnknown
        | some true => .applied

/-- Outcome of `crossplaneExplorer.pauseResource` (annotate then verify).
`readBackPausedValue` is the `crossplane.io/paused` annotation read back by
the verification `kubectl get` (`Except.error` = that fetch rejected,
caught by the surrounding `catch`). -/
inductive PauseOutcome where
  | permissionDenied (stderr : String)
  | notApplied
  | paused
  | failedGeneric (message : String)
deriving DecidableEq, Repr

def pauseResourceOutcome (cmd : CmdResult)
    (readBackPausedValue : Except String (Option String)) : PauseOutcome :=
  match cmd with
  | .reject msg => .failedGeneric msg
  | .resolve _ stderr =>
    if isPermissionStderr stderr then .permissionDenied stderr
    else
      match readBackPausedValue with
      | .error e => .failedGeneric e
      | .ok a => if a = some "true" then .paused else .notApplied

theorem listStartsWith_map (f : Char → Char) (cs ps : List Char)
    (h : listStartsWith cs ps = true) :
    listStartsWith (cs.map f) (ps.map f) = true := by
  induction ps generalizing cs with
  | nil => simp [listStartsWith]
  | cons p ps ih =>
    cases cs with
    | nil => simp [listStartsWith] at h
    | cons c cs =>
      simp [listStartsWith] at h
      simp [listStartsWith, h.1, ih cs h.2]

theorem listContainsSub_map (f : Char → Char) (cs ps : List Char)
    (h : listContainsSub cs ps = true) :
    listContainsSub (cs.map f) (ps.map f) = true := by
  induction cs with
  | nil =>
    simp [listContainsSub] at h
    simp [listContainsSub, h]
  | cons c cs ih =>
    simp [listContainsSub] at h
    rcases h with h | h
    · have := listStartsWith_map f (c :: cs) ps h
      simp [listContainsSub]
      left
      simpa using this
    · simp [listContainsSub, ih h]

theorem jsIncludes_jsToLower (s p : String) (hp : jsToLower p = p)
    (h : jsIncludes s p = true) : jsIncludes (jsToLower s) p = true := by
  have hdata : p.data.map Char.toLower = p.data := congrArg String.data hp
  have := listContainsSub_map Char.toLower s.data p.data h
  rw [hdata] at this
  simpa [jsIncludes, jsToLower] using this

/-- C9 counterexample: an error stream containing `Forbidden` (capital F)
contains the marker "forbidden" in some letter case, yet the apply flow
does not classify it as a permission error — the `includes('forbidden')`
test is case-sensitive (only `permission` is checked on the lowercased
stream).  With the spec-verification succeeding, the save flow reports
plain success. -/
theorem applyForbiddenCase_counterexample :
    jsIncludes (jsToLower "Forbidden: cannot patch") "forbidden" = true ∧
    applySaveOutcome true (.resolve "" "Forbidden: cannot patch") (some true) =
      .applied ∧
    pauseResourceOutcome (.resolve "" "Forbidden: cannot patch") (.ok (some "true")) =
      .paused := by
  refine ⟨by decide, by decide, by decide⟩

/-- C9 (amended): for apply/annotate subprocesses that exit 0, an error
stream containing the exact lowercase marker `forbidden`, or containing
`permission` in any letter case, is surfaced as a permission error
distinct from a generic failure; a stream containing neither marker
case-insensitively is never surfaced as a permission error; a rejected
(non-zero-exit) subprocess is surfaced as a generic failure. -/
theorem permissionMarker_classification :
    (∀ out stderr verified, stderr ≠ "" → jsIncludes stderr "forbidden" = true →
      applySaveOutcome true (.resolve out stderr) verified = .permissionDenied stderr) ∧
    (∀ out stderr verified, stderr ≠ "" →
      jsIncludes (jsToLower stderr) "permission" = true →
      applySaveOutcome true (.resolve out stderr) verified = .permissionDenied stderr) ∧
    (∀ out stderr verified e,
      jsIncludes (jsToLower stderr) "forbidden" = false →
      jsIncludes (jsToLower stderr) "permission" = false →
      applySaveOutcome true (.resolve out stderr) verified ≠ .permissionDenied e) ∧
    (∀ msg verified, applySaveOutcome true (.reject msg) verified = .failedGeneric msg) ∧
    (∀ out stderr annot, stderr ≠ "" → jsIncludes stderr "forbidden" = true →
      pauseResourceOutcome (.resolve out stderr) annot = .permissionDenied stderr) ∧
    (∀ out stderr annot, stderr ≠ "" →
      jsIncludes (jsToLower stderr) "permission" = true →
      pauseResourceOutcome (.resolve out stderr) annot = .permissionDenied stderr) ∧
    (∀ out stderr annot e,
      jsIncludes (jsToLower stderr) "forbidden" = false →
      jsIncludes (jsToLower stderr) "permission" = false →
      pauseResourceOutcome (.resolve out stderr) annot ≠ .permissionDenied e) := by
  have hperm : ∀ stderr : String, stderr ≠ "" → jsIncludes stderr "forbidden" = true →
      isPermissionStderr stderr = true := by
    intro stderr hne hf
    simp [isPermissionStderr, hne, hf]
  have hperm2 : ∀ stderr : String, stderr ≠ "" →
      jsIncludes (jsToLower stderr) "permission" = true →
      isPermissionStderr stderr = true := by
    intro stderr hne hp
    simp [isPermissionStderr, hne, hp]
  have hnone : ∀ stderr : String,
      jsIncludes (jsToLower stderr) "forbidden" = false →
      jsIncludes (jsToLower stderr) "permission" = false →
      isPermissionStderr stderr = false := by
    intro stderr hf hp
    have hraw : jsIncludes stderr "forbidden" = false := by
      cases h : jsIncludes stderr "forbidden" with
      | false => rfl
      | true =>
        have := jsIncludes_jsToLower stderr "forbidden" (by decide) h
        rw [this] at hf
        exact absurd hf (by simp)
    simp [isPermissionStderr, hraw, hp]
  refine ⟨?_, ?_, ?_, ?_, ?_, ?_, ?_⟩
  · intro out stderr verified hne hf
    simp [applySaveOutcome, hperm stderr hne hf]
  · intro out stderr verified hne hp
    simp [applySaveOutcome, hperm2 stderr hne hp]
  · intro out stderr verified e hf hp
    simp only [applySaveOutcome, Bool.not_true, if_false, hnone stderr hf hp]
    cases verified with
    | none => simp
    | some b => cases b <;> simp
  · intro msg verified
    simp [applySaveOutcome]
  · intro out stderr annot hne hf
    simp [pauseResourceOutcome, hperm stderr hne hf]
  · intro out stderr annot hne hp
    simp [pauseResourceOutcome, hperm2 stderr hne hp]
  · intro out stderr annot e hf hp
    simp only [pauseResourceOutcome, hnone stderr hf hp]
    cases annot with
    | error msg => simp
    | ok a =>
      by_cases ha : a = some "true" <;> simp [ha]

/-- Witness for `permissionMarker_classification` at concrete streams. -/
theorem permissionMarker_classification_witness :
    applySaveOutcome true (.resolve "" "pods is forbidden: denied") (some true) =
      .permissionDenied "pods is forbidden: denied" ∧
    pauseResourceOutcome (.resolve "" "no PERMISSION for annotate") (.ok (some "true")) =
      .permissionDenied "no PERMISSION for annotate" ∧
    applySaveOutcome true (.resolve "" "connection refused") (some true) ≠
      .permissionDenied "connection refused" := by
  refine ⟨?_, ?_, ?_⟩
  · exact permissionMarker_classification.1 "" _ (some true) (by decide) (by decide)
  · exact permissionMarker_classification.2.2.2.2.2.1 "" _ (.ok (some "true"))
      (by decide) (by decide)
  · exact permissionMarker_classification.2.2.1 "" _ (some true) _ (by decide) (by decide)

/-!
## Edit/view session handlers (`extension.ts`, lines 133-291)

`viewResource` and `editResource` key their session maps by
`getResourceKey = resourceType:namespace:resourceName:mode`.
The `editResource` handler first checks `resourceToTempFileMap` and, when
the registered temp file still opens, surfaces it and returns without
fetching; the `viewResource` handler has no such check and always
fetches and rewrites.  `openingResources` is the re-entrancy guard; a
completed handler removes its key again (`finally`), so a whole
invocation leaves it unchanged and it is modelled as part of the state.
Fetch/write side effects are counted; opening a document in the editor is
recorded in `shown`; `showErrorMessage` calls are recorded in `notices`.
The `mkdtemp` result is the `tempFilePath` parameter; tab closing is the
hosting UI's effect and has no bearing on the session maps.
-/

def lookupS : List (String × String) → String → Option String
  | [], _ => none
  | (k, v) :: t, key => if k = key then some v else lookupS t key

def setS : List (String × String) → String → String → List (String × String)
  | [], key, v => [(key, v)]
  | (k, w) :: t, key, v => if k = key then (k, v) :: t else (k, w) :: setS t key v

def eraseS (l : List (String × String)) (k : String) : List (String × String) :=
  l.filter (fun kv => kv.1 ≠ k)

theorem lookupS_setS_self (l : List (String × String)) (k v : String) :
    lookupS (setS l k v) k = some v := by
  induction l with
  | nil => simp [setS, lookupS]
  | cons kv t ih =>
    cases kv with
    | mk k' w =>
      by_cases h : k' = k
      · simp [setS, lookupS, h]
      · simp [setS, lookupS, h, ih]

/-- A `CrossplaneResource` as consumed by the handlers (absent fields are
the empty string, which is what the JS truthiness tests observe). -/
structure XRes where
  resourceType : String
  resourceName : String
  nspace : String
deriving DecidableEq, Repr

/-- `getResourceKey(resource, mode)` of `extension.ts`. -/
def getResourceKey (r : XRes) (mode : String) : String :=
  r.resourceType ++ ":" ++ r.nspace ++ ":" ++ r.resourceName ++ ":" ++ mode

structure SessionState where
  resourceToTempFileMap : List (String × String)
  tempFileToResourceMap : List (String × String)
  openingResources : List String
  fetchCount : Nat
  writeCount : Nat
deriving DecidableEq, Repr

structure HandlerResult where
  state : SessionState
  shown : List String
  notices : List String
deriving DecidableEq, Repr

/-- The `crossplane-explorer.viewResource` handler (lines 148-206): no
session-map check — it always fetches, writes a fresh temp file and
replaces the map entries. -/
def viewResource (s : SessionState) (r : XRes) (fetched : CmdResult)
    (tempFilePath : String) : HandlerResult :=
  if r.resourceType = "" ∨ r.resourceName = "" then
    ⟨s, [], ["Cannot view resource: resource name is missing."]⟩
  else
    let resourceKey := getResourceKey r "view"
    if resourceKey ∈ s.openingResources then ⟨s, [], []⟩
    else
      match fetched with
      | .reject msg =>
        ⟨{ s with fetchCount := s.fetchCount + 1 }, [],
          ["Failed to view resource YAML: " ++ msg]⟩
      | .resolve _ _ =>
        ⟨{ s with
            fetchCount := s.fetchCount + 1,
            writeCount := s.writeCount + 1,
            resourceToTempFileMap :=
              setS s.resourceToTempFileMap resourceKey tempFilePath,
            tempFileToResourceMap :=
              setS s.tempFileToResourceMap tempFilePath resourceKey },
          [tempFilePath], []⟩

/-- Fetch-parse-sanitize-write tail of the `editResource` handler
(lines 228-291).  `parsed` is the `yaml.load(stdout)` result; `none`
covers a parse throw (and a `null`/`undefined` document, whose
`delete resourceYaml.status` throws), both caught by the handler. -/
def editFetchWrite (s : SessionState) (resourceKey : String) (fetched : CmdResult)
    (parsed : Option Json) (tempFilePath : String) : HandlerResult :=
  match fetched with
  | .reject msg =>
    ⟨{ s with fetchCount := s.fetchCount + 1 }, [],
      ["Failed to get resource YAML: " ++ msg]⟩
  | .resolve _ _ =>
    match parsed with
    | none =>
      ⟨{ s with fetchCount := s.fetchCount + 1 }, [],
        ["Failed to get resource YAML: parse error"]⟩
    | some resourceYaml =>
      if jsTruthy resourceYaml ∧ jget resourceYaml "kind" = some (.str "List") then
        ⟨{ s with fetchCount := s.fetchCount + 1 }, [],
          ["Selected item is not a single resource. Please select a specific object."]⟩
      else
        ⟨{ s with
            fetchCount := s.fetchCount + 1,
            writeCount := s.writeCount + 1,
            resourceToTempFileMap :=
              setS s.resourceToTempFileMap resourceKey tempFilePath,
            tempFileToResourceMap :=
              setS s.tempFileToResourceMap tempFilePath resourceKey },
          [tempFilePath], []⟩

/-- The `crossplane-explorer.editResource` handler (lines 208-291).
`openExistingOk` is whether `openTextDocument` on the registered temp
file succeeds (it fails if the file was deleted externally; the handler
then drops both map entries and falls through to re-create). -/
def editResource (s : SessionState) (r : XRes) (openExistingOk : Bool)
    (fetched : CmdResult) (parsed : Option Json) (tempFilePath : String) :
    HandlerResult :=
  if r.resourceType = "" ∨ r.resourceName = "" then
    ⟨s, [], ["Cannot edit resource: resource name is missing."]⟩
  else
    let resourceKey := getResourceKey r "edit"
    if resourceKey ∈ s.openingResources then ⟨s, [], []⟩
    else
      match lookupS s.resourceToTempFileMap resourceKey with
      | some existingPath =>
        if openExistingOk then ⟨s, [existingPath], []⟩
        else
          editFetchWrite
            { s with
                resourceToTempFileMap := eraseS s.resourceToTempFileMap resourceKey,
                tempFileToResourceMap := eraseS s.tempFileToResourceMap existingPath }
            resourceKey fetched parsed tempFilePath
      | none => editFetchWrite s resourceKey fetched parsed tempFilePath

/-- C1 counterexample: a view-mode session for `mydb.example.org:ns1:db1`
is registered in both session maps and no open is in flight, yet a second
`viewResource` request spawns another kubectl fetch and another temp-file
write, replacing the mapped file instead of reusing it. -/
theorem viewResource_refetch_counterexample :
    viewResource
      { resourceToTempFileMap := [("mydb.example.org:ns1:db1:view", "/tmp/a/f-view.yaml")],
        tempFileToResourceMap := [("/tmp/a/f-view.yaml", "mydb.example.org:ns1:db1:view")],
        openingResources := [], fetchCount := 1, writeCount := 1 }
      ⟨"mydb.example.org", "db1", "ns1"⟩
      (.resolve "kind: MyDb" "") "/tmp/b/f-view.yaml" =
    ⟨{ resourceToTempFileMap := [("mydb.example.org:ns1:db1:view", "/tmp/b/f-view.yaml")],
       tempFileToResourceMap := [("/tmp/a/f-view.yaml", "mydb.example.org:ns1:db1:view"),
         ("/tmp/b/f-view.yaml", "mydb.example.org:ns1:db1:view")],
       openingResources := [], fetchCount := 2, writeCount := 2 },
      ["/tmp/b/f-view.yaml"], []⟩ := by
  decide

/-- C1 (amended): the reuse guarantee holds for edit mode — an
`editResource` request for an identity already registered in the session
map (with the file still openable and no open in flight) performs no
fetch and no write, leaves the whole session state unchanged and
surfaces the registered file; a repeat `viewResource` request, by
contrast, always issues a fresh fetch and write and re-points the
session map at the new temp file. -/
theorem editResource_reuse_viewResource_refetch
    (s : SessionState) (r : XRes) (fetched : CmdResult) (parsed : Option Json)
    (tmp existing : String)
    (htype : r.resourceType ≠ "") (hname : r.resourceName ≠ "")
    (hopen : getResourceKey r "edit" ∉ s.openingResources)
    (hreg : lookupS s.resourceToTempFileMap (getResourceKey r "edit") = some existing) :
    editResource s r true fetched parsed tmp = ⟨s, [existing], []⟩ ∧
    (∀ (s' : SessionState) (stdout tmp' : String),
      getResourceKey r "view" ∉ s'.openingResources →
      (viewResource s' r (.resolve stdout "") tmp').state.fetchCount =
        s'.fetchCount + 1 ∧
      (viewResource s' r (.resolve stdout "") tmp').state.writeCount =
        s'.writeCount + 1 ∧
      lookupS (viewResource s' r (.resolve stdout "") tmp').state.resourceToTempFileMap
        (getResourceKey r "view") = some tmp') := by
  constructor
  · simp [editResource, htype, hname, hopen, hreg]
  · intro s' stdout tmp' hopen'
    refine ⟨?_, ?_, ?_⟩ <;>
      simp [viewResource, htype, hname, hopen', lookupJ_setJ_self]
    exact lookupS_setS_self _ _ _

/-- Witness for `editResource_reuse_viewResource_refetch` at a concrete
registered edit session. -/
theorem editResource_reuse_viewResource_refetch_witness :
    editResource
      { resourceToTempFileMap := [("mydb.example.org:ns1:db1:edit", "/tmp/a/f-edit.yaml")],
        tempFileToResourceMap := [("/tmp/a/f-edit.yaml", "mydb.example.org:ns1:db1:edit")],
        openingResources := [], fetchCount := 1, writeCount := 1 }
      ⟨"mydb.example.org", "db1", "ns1"⟩ true (.resolve "" "") none "/tmp/c/f.yaml" =
    ⟨{ resourceToTempFileMap := [("mydb.example.org:ns1:db1:edit", "/tmp/a/f-edit.yaml")],
       tempFileToResourceMap := [("/tmp/a/f-edit.yaml", "mydb.example.org:ns1:db1:edit")],
       openingResources := [], fetchCount := 1, writeCount := 1 },
      ["/tmp/a/f-edit.yaml"], []⟩ :=
  (editResource_reuse_viewResource_refetch
    { resourceToTempFileMap := [("mydb.example.org:ns1:db1:edit", "/tmp/a/f-edit.yaml")],
      tempFileToResourceMap := [("/tmp/a/f-edit.yaml", "mydb.example.org:ns1:db1:edit")],
      openingResources := [], fetchCount := 1, writeCount := 1 }
    ⟨"mydb.example.org", "db1", "ns1"⟩ (.resolve "" "") none "/tmp/c/f.yaml"
    "/tmp/a/f-edit.yaml" (by decide) (by decide) (by decide) (by decide)).1

/-!
## Live field-watch lifecycle (`extension.ts`,
`crossplaneExplorer.showLiveDiff`, lines 458-588)

State: `fieldWatchMap` (ResourceIdentity → stop function; modelled as the
set of registered keys in insertion order), `fieldWatchOutputMap`
(ResourceIdentity → output channel, modelled as its appended lines), and
a counter of opened watch subscriptions.  The duplicate check is
`fieldWatchOutputMap.has(resourceKey)`: if present, the handler shows the
existing channel, appends one `[INFO]` line and returns.  Otherwise it
creates a channel, registers it, resolves the CRD (`crd` parameter) and —
only on success — opens the subscription and registers `stopWatch` in
`fieldWatchMap`.
-/

def lookupL : List (String × List String) → String → Option (List String)
  | [], _ => none
  | (k, v) :: t, key => if k = key then some v else lookupL t key

def setL : List (String × List String) → String → List String →
    List (String × List String)
  | [], key, v => [(key, v)]
  | (k, w) :: t, key, v => if k = key then (k, v) :: t else (k, w) :: setL t key v

theorem lookupL_setL_self (l : List (String × List String)) (k : String)
    (v : List String) : lookupL (setL l k v) k = some v := by
  induction l with
  | nil => simp [setL, lookupL]
  | cons kv t ih =>
    cases kv with
    | mk k' w =>
      by_cases h : k' = k
      · simp [setL, lookupL, h]
      · simp [setL, lookupL, h, ih]

theorem lookupL_setL_ne (l : List (String × List String)) (k k' : String)
    (v : List String) (h : k ≠ k') : lookupL (setL l k v) k' = lookupL l k' := by
  induction l with
  | nil => simp [setL, lookupL, h]
  | cons kv t ih =>
    cases kv with
    | mk k0 w =>
      by_cases h0 : k0 = k
      · subst h0; simp [setL, lookupL, h]
      · simp [setL, lookupL, h0, ih]

structure WatchState where
  fieldWatchMap : List String
  fieldWatchOutputMap : List (String × List String)
  watchesStarted : Nat
deriving DecidableEq, Repr

/-- The watch key: `resourceType:namespace:resourceName` (no mode). -/
def fieldWatchKey (r : XRes) : String :=
  r.resourceType ++ ":" ++ r.nspace ++ ":" ++ r.resourceName

/-- Outcome of `readCustomResourceDefinition` for the computed CRD name. -/
inductive CrdFetch where
  | failed (err : String)
  | resolved (plural version group scope : String)
deriving DecidableEq, Repr

/-- `crossplaneExplorer.showLiveDiff` as a state transition.
`kindField`/`apiVersionField` are `(resource as any).kind` /
`.apiVersion` (empty string when absent). -/
def showLiveDiff (s : WatchState) (r : XRes) (kindField apiVersionField : String)
    (crd : CrdFetch) : WatchState :=
  let resourceKey := fieldWatchKey r
  match lookupL s.fieldWatchOutputMap resourceKey with
  | some lines =>
    { s with fieldWatchOutputMap :=
        (setL s.fieldWatchOutputMap resourceKey
          (lines ++ ["[INFO] Field Watch is already running for this resource."])) }
  | none =>
    let header := "# Field Watch for " ++ r.resourceType ++ " " ++ r.resourceName ++
      (if r.nspace ≠ "" then " -n " ++ r.nspace else "") ++ "\n"
    let s1 := { s with fieldWatchOutputMap :=
        (setL s.fieldWatchOutputMap resourceKey [header]) }
    if r.resourceType = "" then
      { s1 with fieldWatchOutputMap :=
          (setL s1.fieldWatchOutputMap resourceKey
            [header, "[ERROR] Resource type is missing."]) }
    else
      -- kind / group / crdName derivation (lines 484-497)
      let group0 :=
        if apiVersionField ≠ "" ∧ jsIncludes apiVersionField "/" = true then
          ((jsSplitSub apiVersionField "/").headD "")
        else ""
      let kind1 :=
        if kindField = "" then ((jsSplitSub r.resourceType ".").headD "") else kindField
      let group1 :=
        if kindField = "" ∧ group0 = "" then
          (String.intercalate "." ((jsSplitSub r.resourceType ".").drop 1))
        else group0
      let crdName :=
        if group1 ≠ "" then jsToLower kind1 ++ "s." ++ group1 else jsToLower kind1 ++ "s"
      match crd with
      | .failed err =>
        { s1 with fieldWatchOutputMap :=
            (setL s1.fieldWatchOutputMap resourceKey
              [header,
               "[ERROR] Could not fetch CRD details for " ++ crdName ++ ": " ++ err,
               "This may mean the CRD does not exist in your cluster or the name is incorrect.",
               "Try running 'kubectl get crd' to see available CRDs."]) }
      | .resolved _ _ _ _ =>
        { s1 with
            watchesStarted := s1.watchesStarted + 1,
            fieldWatchMap :=
              if resourceKey ∈ s1.fieldWatchMap then s1.fieldWatchMap
              else s1.fieldWatchMap ++ [resourceKey] }

/-- C5: duplicate-start suppression.  A `showLiveDiff` request for an
identity whose output channel is already registered opens no new watch
subscription, leaves `fieldWatchMap` untouched, appends exactly one
informational line to the existing sink, and changes no other entry of
the sink map. -/
theorem showLiveDiff_duplicate_suppressed (s : WatchState) (r : XRes)
    (kindField apiVersionField : String) (crd : CrdFetch) (lines : List String)
    (hreg : lookupL s.fieldWatchOutputMap (fieldWatchKey r) = some lines) :
    (showLiveDiff s r kindField apiVersionField crd).watchesStarted =
      s.watchesStarted ∧
    (showLiveDiff s r kindField apiVersionField crd).fieldWatchMap =
      s.fieldWatchMap ∧
    lookupL (showLiveDiff s r kindField apiVersionField crd).fieldWatchOutputMap
      (fieldWatchKey r) =
      some (lines ++ ["[INFO] Field Watch is already running for this resource."]) ∧
    (∀ k, k ≠ fieldWatchKey r →
      lookupL (showLiveDiff s r kindField apiVersionField crd).fieldWatchOutputMap k =
      lookupL s.fieldWatchOutputMap k) := by
  refine ⟨?_, ?_, ?_, ?_⟩
  · simp [showLiveDiff, hreg]
  · simp [showLiveDiff, hreg]
  · simp [showLiveDiff, hreg, lookupL_setL_self]
  · intro k hk
    simp only [showLiveDiff, hreg]
    exact lookupL_setL_ne _ _ _ _ (fun h => hk h.symm)

/-- Witness for `showLiveDiff_duplicate_suppressed` at a concrete state
with one active watch. -/
theorem showLiveDiff_duplicate_suppressed_witness :
    (showLiveDiff
      { fieldWatchMap := ["xnet.example.org::net-a"],
        fieldWatchOutputMap := [("xnet.example.org::net-a", ["# Field Watch"])],
        watchesStarted := 1 }
      ⟨"xnet.example.org", "net-a", ""⟩ "" "" (.resolved "xnets" "v1" "example.org" "Cluster")).watchesStarted = 1 ∧
    (showLiveDiff
      { fieldWatchMap := ["xnet.example.org::net-a"],
        fieldWatchOutputMap := [("xnet.example.org::net-a", ["# Field Watch"])],
        watchesStarted := 1 }
      ⟨"xnet.example.org", "net-a", ""⟩ "" "" (.resolved "xnets" "v1" "example.org" "Cluster")).fieldWatchMap = ["xnet.example.org::net-a"] ∧
    lookupL (showLiveDiff
      { fieldWatchMap := ["xnet.example.org::net-a"],
        fieldWatchOutputMap := [("xnet.example.org::net-a", ["# Field Watch"])],
        watchesStarted := 1 }
      ⟨"xnet.example.org", "net-a", ""⟩ "" "" (.resolved "xnets" "v1" "example.org" "Cluster")).fieldWatchOutputMap
      "xnet.example.org::net-a" =
      some ["# Field Watch", "[INFO] Field Watch is already running for this resource."] := by
  have h := showLiveDiff_duplicate_suppressed
    { fieldWatchMap := ["xnet.example.org::net-a"],
      fieldWatchOutputMap := [("xnet.example.org::net-a", ["# Field Watch"])],
      watchesStarted := 1 }
    ⟨"xnet.example.org", "net-a", ""⟩ "" "" (.resolved "xnets" "v1" "example.org" "Cluster")
    ["# Field Watch"] (by decide)
  exact ⟨h.1, h.2.1, h.2.2.1⟩

/-!
## Tree model (`crossplaneExplorer.ts`, `CrossplaneExplorerProvider`)

Cluster objects are modelled by the fields `getChildren` actually reads
(`XItem`); display nodes by `TreeNode` (icons and the attached
`viewResource` command are UI decoration and carry no tree-model state;
`_childComposites`, stashed on claim nodes, is the `childComposites`
field).  JSON.parse of a subprocess's stdout is a library boundary and is
passed in as the `parseItems` / `parseComposite` functions (`none`
models a parse throw, which the enclosing `try` turns into the same
error path as a rejected subprocess).
-/

structure Cond where
  ctype : String
  cstatus : String
deriving DecidableEq, Repr

structure ClaimRef where
  kind : String
  apiVersion : String
  name : String
  nspace : String
deriving DecidableEq, Repr

/-- A parsed cluster object (absent string fields are `""`,
`metadata.ownerReferences` is kept as its length, `status.conditions` as
`none` when `status` or `conditions` is missing). -/
structure XItem where
  kind : String := ""
  apiVersion : String := ""
  name : String := ""
  nspace : String := ""
  claimRef : Option ClaimRef := none
  ownerRefs : Nat := 0
  conditions : Option (List Cond) := none
  scope : String := ""
deriving DecidableEq, Repr

/-- An entry of `composite.spec.resourceRefs`. -/
structure RRef where
  kind : String := ""
  apiVersion : String := ""
  name : String := ""
  nspace : String := ""
deriving DecidableEq, Repr

inductive CollapsState where
  | leaf
  | collapsed
  | expanded
deriving DecidableEq, Repr

structure TreeNode where
  label : String
  collapsibleState : CollapsState
  resourceType : String := ""
  resourceName : String := ""
  nspace : String := ""
  contextValue : String := ""
  tooltip : String := ""
  childComposites : List XItem := []
deriving DecidableEq, Repr

/-- Provider-instance state: the combined-fetch cache and the loading
flag (`allResources` / `loading`). -/
structure TreeState where
  allResources : Option (List XItem)
  loading : Bool
deriving DecidableEq, Repr

/-- JS `line.split(/\s+/)`: split on maximal whitespace runs (leading or
trailing whitespace contributes an empty first/last element). -/
def jsSplitWsGo : List Char → List Char → Bool → List String
  | [], cur, _ => [String.mk cur.reverse]
  | c :: rest, cur, prevWs =>
    if c.isWhitespace then
      if prevWs then jsSplitWsGo rest cur true
      else String.mk cur.reverse :: jsSplitWsGo rest [] true
    else jsSplitWsGo rest (c :: cur) false

def jsSplitWs (s : String) : List String :=
  jsSplitWsGo s.data [] false

/-- `stdout.split('\n').filter(nonblank)` then
`const [namespace, name] = line.split(/\s+/)` (lines 96-99 etc.). -/
def parsePodLines (stdout : String) : List (String × String) :=
  ((jsSplitSub stdout "\n").filter (fun line => (jsTrim line).length > 0)).map
    (fun line =>
      let parts := jsSplitWs line
      (parts.getD 0 "", parts.getD 1 ""))

/-- Pod display node shared by the three logs categories (lines 99-116,
135-154, 174-192; `maxLabelLength = 24`, truncation keeps
`slice(0, 24 - 3)` characters; all three set
`contextValue = 'logs-provider-pod'`). -/
def makePodNode (podType : String) (nsname : String × String) : TreeNode :=
  let nspace := nsname.1
  let name := nsname.2
  let displayName := if name.length > 24 then (name.take (24 - 3)) ++ "..." else name
  { label := displayName ++ " (" ++ nspace ++ ")",
    collapsibleState := .leaf,
    resourceType := podType,
    resourceName := name,
    nspace := nspace,
    contextValue := "logs-provider-pod",
    tooltip := name ++ " (" ++ nspace ++ ")" }

/-- One logs-category branch: rejected fetch or stderr-without-stdout
yields an error notification and no children; otherwise one pod node per
parsed line. -/
def logsPodsChildren (podType errPrefix : String) (fetch : CmdResult) :
    List TreeNode × List String :=
  match fetch with
  | .reject msg => ([], [errPrefix ++ msg])
  | .resolve stdout stderr =>
    if stderr ≠ "" ∧ stdout = "" then ([], [stderr])
    else ((parsePodLines stdout).map (makePodNode podType), [])

/-- `kind.toLowerCase()` qualified by the API group taken from
`apiVersion.split('/')[0] || ''` (used for claims, composites,
resource refs). -/
def lowerKindWithGroup (kind apiVersion : String) : String :=
  let group := (jsSplitSub apiVersion "/").headD ""
  if group ≠ "" then jsToLower kind ++ "." ++ group else jsToLower kind

/-- The `claimRef && claimRef.name && claimRef.kind && claimRef.namespace`
guard of the deployment-flow grouping. -/
def claimRefComplete (cr : ClaimRef) : Bool :=
  cr.name != "" && cr.kind != "" && cr.nspace != ""

/-- The grouping key `${resourceType}|${name}|${namespace}` (line 257). -/
def claimKey (cr : ClaimRef) : String :=
  lowerKindWithGroup cr.kind cr.apiVersion ++ "|" ++ cr.name ++ "|" ++ cr.nspace

/-- Insertion-ordered `Map.set`-with-append used to build `claimsMap`. -/
def claimsMapInsert (m : List (String × (ClaimRef × List XItem))) (key : String)
    (cr : ClaimRef) (item : XItem) : List (String × (ClaimRef × List XItem)) :=
  match m with
  | [] => [(key, (cr, [item]))]
  | (k, (cr0, items)) :: t =>
    if k = key then (k, (cr0, items ++ [item])) :: t
    else (k, (cr0, items)) :: claimsMapInsert t key cr item

def buildClaimsMap (items : List XItem) : List (String × (ClaimRef × List XItem)) :=
  items.foldl
    (fun m item =>
      match item.claimRef with
      | some cr =>
        if claimRefComplete cr then claimsMapInsert m (claimKey cr) cr item else m
      | none => m)
    []

/-- A claim node of the deployment-flow view (lines 266-289); the
grouped composites ride along as `childComposites`. -/
def claimNodeOf (cr : ClaimRef) (composites : List XItem) : TreeNode :=
  let resourceType := lowerKindWithGroup cr.kind cr.apiVersion
  { label := "[claim] | " ++ resourceType ++ " | " ++ cr.name ++ " | " ++ cr.nspace,
    collapsibleState := .collapsed,
    resourceType := resourceType,
    resourceName := cr.name,
    nspace := cr.nspace,
    contextValue := "deployment-flow-claim",
    childComposites := composites }

/-- An `[XR]` node for a composite object (lines 296-317 and 330-351 —
identical construction; composites are cluster-scoped). -/
def xrNodeOfComposite (item : XItem) : TreeNode :=
  { label := "[XR] | " ++ item.kind ++ " | " ++ item.name,
    collapsibleState := .collapsed,
    resourceType := lowerKindWithGroup item.kind item.apiVersion,
    resourceName := item.name,
    nspace := "",
    contextValue := "composite-xr" }

/-- The `deployment-flow` category expansion (lines 238-325): group the
composites carrying a complete claim reference by `claimKey`, one claim
node per key; composites with no claim reference and no owner references
become root-XR nodes; everything else is dropped. -/
def deploymentFlowChildren (items : List XItem) : List TreeNode :=
  let claimNodes := (buildClaimsMap items).map
    (fun kv => claimNodeOf kv.2.1 kv.2.2)
  let parentXRs := items.filter
    (fun item => item.claimRef.isNone && item.ownerRefs == 0)
  claimNodes ++ parentXRs.map xrNodeOfComposite

/-- Expansion of a `deployment-flow-claim` node (lines 327-352). -/
def expandClaimChildren (n : TreeNode) : List TreeNode :=
  n.childComposites.map xrNodeOfComposite

/-- A node for one `spec.resourceRefs` entry of an expanded composite
(lines 361-387): a `kind` starting with `X` is a nested composite,
anything else a managed-resource leaf. -/
def rrefNode (ref : RRef) : TreeNode :=
  let isComposite := ref.kind != "" && jsStartsWith ref.kind "X"
  let resourceType := lowerKindWithGroup ref.kind ref.apiVersion
  { label := (if isComposite then "[XR] | " else "[MR] | ") ++ ref.kind ++ " | " ++ ref.name,
    collapsibleState := if isComposite then .collapsed else .leaf,
    resourceType := resourceType,
    resourceName := ref.name,
    nspace := if isComposite then "" else ref.nspace,
    contextValue := if isComposite then "composite-xr" else "managed-resource" }

/-- The `claim` category listing (lines 202-237). -/
def claimListNode (item : XItem) : TreeNode :=
  let resourceType := lowerKindWithGroup item.kind item.apiVersion
  { label := "[claim] | " ++ resourceType ++ " | " ++ item.name ++ " | " ++ item.nspace,
    collapsibleState := .leaf,
    resourceType := resourceType,
    resourceName := item.name,
    nspace := item.nspace }

def claimListChildren (fetch : CmdResult)
    (parseItems : String → Option (Option (List XItem))) :
    List TreeNode × List String :=
  match fetch with
  | .reject msg => ([], ["Error fetching claims: " ++ msg])
  | .resolve stdout _ =>
    match parseItems stdout with
    | none => ([], ["Error fetching claims: parse error"])
    | some none => ([], [])
    | some (some items) =>
      if items.isEmpty then ([], []) else (items.map claimListNode, [])

/-- The `deployment-flow` branch including its fetch/parse wrapper. -/
def deploymentFlowBranch (fetch : CmdResult)
    (parseItems : String → Option (Option (List XItem))) :
    List TreeNode × List String :=
  match fetch with
  | .reject msg => ([], ["Error fetching composites: " ++ msg])
  | .resolve stdout _ =>
    match parseItems stdout with
    | none => ([], ["Error fetching composites: parse error"])
    | some none => ([], [])
    | some (some items) =>
      if items.isEmpty then ([], []) else (deploymentFlowChildren items, [])

/-- `providerconfigs` dynamic category discovery (lines 395-426):
`kubectl api-resources` lines starting with `providerconfigs.` are
bucketed into a JS object (insertion-ordered, later assignment replaces
the value in place — `setS`). -/
def providerconfigsCategories (fetch : CmdResult) : List TreeNode × List String :=
  match fetch with
  | .reject msg => ([], ["Error discovering providerconfig categories: " ++ msg])
  | .resolve stdout _ =>
    let lines := (jsSplitSub stdout "\n").filter
      (fun l => jsStartsWith l "providerconfigs.")
    let categories := lines.foldl
      (fun cats line =>
        if jsIncludes line "aws" then setS cats "aws" line
        else if jsIncludes line "azure" then setS cats "azure" line
        else if jsIncludes line "kubernetes" then setS cats "kubernetes" line
        else if jsIncludes line "tf" then setS cats "tf" line
        else
          let suffix0 := (jsSplitSub line "providerconfigs.").getD 1 ""
          let suffix := if suffix0 = "" then "other" else suffix0
          setS cats suffix line)
      []
    (categories.map (fun kv =>
      { label := kv.1,
        collapsibleState := .collapsed,
        resourceType := "providerconfigs-category",
        resourceName := kv.2,
        contextValue := "providerconfigs-category" }), [])

/-- Expansion of one providerconfigs category (lines 428-454). -/
def providerconfigsCategoryChildren (el : TreeNode) (fetch : CmdResult)
    (parseItems : String → Option (Option (List XItem))) :
    List TreeNode × List String :=
  match fetch with
  | .reject msg =>
    ([], ["Error fetching providerconfigs for " ++ el.label ++ ": " ++ msg])
  | .resolve stdout _ =>
    match parseItems stdout with
    | none => ([], ["Error fetching providerconfigs for " ++ el.label ++ ": parse error"])
    | some none => ([], [])
    | some (some items) =>
      if items.isEmpty then ([], [])
      else
        (items.map (fun item =>
          { label := item.name,
            collapsibleState := .leaf,
            resourceType := el.resourceName,
            resourceName := item.name,
            contextValue := "providerconfig" }), [])

def multiResourceTypes : List String :=
  ["environmentconfigs", "compositions", "configurations", "deploymentruntimeconfigs",
   "compositeresourcedefinitions", "providers", "functions", "providerconfigs"]

/-- The per-category kind filter of the cached-slice branch (lines 462-488). -/
def categoryFilter (label : String) (item : XItem) : Bool :=
  if label = "xrds" ∨ label = "compositeresourcedefinitions" then
    item.kind == "CompositeResourceDefinition"
  else if label = "providerconfigs" then item.kind == "ProviderConfig"
  else if label = "functions" then item.kind == "Function"
  else if label = "providers" then item.kind == "Provider"
  else if label = "deploymentruntimeconfigs" then item.kind == "DeploymentRuntimeConfig"
  else if label = "configurations" then item.kind == "Configuration"
  else if label = "compositions" then item.kind == "Composition"
  else if label = "environmentconfigs" then item.kind == "EnvironmentConfig"
  else false

def categoryContext (label : String) : String :=
  if label = "xrds" ∨ label = "compositeresourcedefinitions" then "xrd"
  else if label = "providerconfigs" then "providerconfig"
  else if label = "compositions" then "composition"
  else if label = "providers" then "provider"
  else if label = "functions" then "function"
  else if label = "deploymentruntimeconfigs" then "deploymentruntimeconfig"
  else if label = "configurations" then "configuration"
  else if label = "environmentconfigs" then "environmentconfig"
  else ""

/-- The cached-slice branch (lines 456-531): serves a category from the
combined-fetch cache; while `loading` it returns nothing. -/
def categorySliceChildren (st : TreeState) (label : String) : List TreeNode :=
  if st.loading then []
  else
    let filtered := (st.allResources.getD []).filter (categoryFilter label)
    if filtered.isEmpty then []
    else
      filtered.map (fun item =>
        { label := item.name ++
            (if item.nspace ≠ "" then " (" ++ item.nspace ++ ")" else ""),
          collapsibleState := .leaf,
          resourceType := if label = "xrds" then "compositeresourcedefinitions" else label,
          resourceName := item.name,
          nspace := item.nspace,
          contextValue := categoryContext label })

/-- The `crossplane` pods branch (lines 534-562). -/
def crossplanePodsChildren (fetch : CmdResult)
    (parseItems : String → Option (Option (List XItem))) :
    List TreeNode × List String :=
  match fetch with
  | .reject msg => ([], ["Error fetching crossplane pods: " ++ msg])
  | .resolve stdout _ =>
    match parseItems stdout with
    | none => ([], ["Error fetching crossplane pods: parse error"])
    | some none => ([], [])
    | some (some items) =>
      if items.isEmpty then ([], [])
      else
        (items.map (fun item =>
          { label := item.name,
            collapsibleState := .leaf,
            resourceType := "crossplane-pod",
            resourceName := item.name,
            nspace := item.nspace,
            contextValue := "crossplane-pod",
            tooltip := item.name ++ " (" ++ item.nspace ++ ")" }), [])

/-- Status derivation of the generic listing branch (lines 596-612). -/
def genericStatusText (resourceType : String) (item : XItem) : String :=
  if resourceType = "crds" then (if item.scope ≠ "" then item.scope else "Unknown")
  else
    match item.conditions with
    | some cs =>
      if resourceType = "providers" ∨ resourceType = "functions" then
        match cs.find? (fun c => c.ctype == "Healthy") with
        | some c => if c.cstatus == "True" then "Healthy" else "Unhealthy"
        | none => "Unknown"
      else
        match cs.find? (fun c => c.ctype == "Synced") with
        | some c => if c.cstatus == "True" then "Synced" else "NotSynced"
        | none => "Unknown"
    | none => "Unknown"

/-- A node of the generic listing branch (lines 592-645). -/
def genericNode (resourceType : String) (item : XItem) : TreeNode :=
  let statusText := genericStatusText resourceType item
  let special := resourceType = "composite" ∨ resourceType = "claim" ∨
    resourceType = "managed"
  let group := (jsSplitSub item.apiVersion "/").headD ""
  let fullResourceType :=
    if special then jsToLower item.kind ++ "." ++ group else resourceType
  let displayKind := if special then item.kind ++ "." ++ group else ""
  let crdResourceType := if resourceType = "crds" then "crd" else fullResourceType
  { label :=
      if special then
        (if item.nspace ≠ "" then
          displayKind ++ " | " ++ item.name ++ " " ++ item.nspace ++ " | " ++ statusText
        else displayKind ++ " | " ++ item.name ++ " | " ++ statusText)
      else
        (if item.nspace ≠ "" then
          item.name ++ " " ++ item.nspace ++ " | " ++ statusText
        else item.name ++ " | " ++ statusText),
    collapsibleState := .leaf,
    resourceType := crdResourceType,
    resourceName := item.name,
    nspace := item.nspace,
    contextValue :=
      if resourceType = "providers" then "provider"
      else if resourceType = "functions" then "function" else "" }

/-- The generic fallthrough branch (lines 564-653), including the CRD
suffix denylist (`excludeCrdSuffixes`, default
`["crossplane.io", "upbound.io", "cattle.io"]`). -/
def genericChildren (label : String) (fetch : CmdResult)
    (parseItems : String → Option (Option (List XItem)))
    (excludeSuffixes : List String) : List TreeNode × List String :=
  match fetch with
  | .reject msg => ([], ["Error getting kubectl resources: " ++ msg])
  | .resolve stdout stderr =>
    if stderr ≠ "" ∧ stdout = "" then ([], [stderr])
    else
      match parseItems stdout with
      | none => ([], ["Error getting kubectl resources: parse error"])
      | some none => ([], [])
      | some (some items) =>
        if items.isEmpty then ([], [])
        else
          let filtered := items.filter (fun item =>
            if label = "crds" then
              !(excludeSuffixes.any (fun suffix => jsEndsWith item.name suffix))
            else true)
          (filtered.map (genericNode label), [])

/-- The first (guard) half of the root preload (lines 40-42): the guard
`!this.allResources && !this.loading` is checked, and when it passes the
combined fetch is issued.  Nothing sets `loading := true` before the
`await` — the flag is only ever reset in `finally`. -/
def rootPreloadStart (st : TreeState) : TreeState × Bool :=
  if st.allResources.isNone ∧ st.loading = false then (st, true) else (st, false)

/-- The continuation after the awaited combined fetch resolves
(lines 54-65): store `result.items || []` (or `[]` with an error
notification on failure) and run the `finally` reset of `loading`. -/
def rootPreloadFinish (started : Bool) (fetch : CmdResult)
    (parseItems : String → Option (Option (List XItem))) (st : TreeState) :
    TreeState :=
  if started then
    match fetch with
    | .reject _ => { allResources := some [], loading := false }
    | .resolve stdout _ =>
      match parseItems stdout with
      | none => { allResources := some [], loading := false }
      | some itemsOpt => { allResources := some (itemsOpt.getD []), loading := false }
  else st

def xpExplorerNode : TreeNode :=
  { label := "XPExplorer", collapsibleState := .expanded }

/-- The whole root branch run without interleaving (lines 40-70): guard,
fetch, store, and in every case the single `XPExplorer` node. -/
def rootChildren (st : TreeState) (fetch : CmdResult)
    (parseItems : String → Option (Option (List XItem))) :
    TreeState × List TreeNode × List String × Bool :=
  let (s1, started) := rootPreloadStart st
  let s2 := rootPreloadFinish started fetch parseItems s1
  let notices :=
    if started then
      match fetch with
      | .reject msg => ["Error fetching resources: " ++ msg]
      | .resolve stdout _ =>
        match parseItems stdout with
        | none => ["Error fetching resources: parse error"]
        | some _ => []
    else []
  (s2, [xpExplorerNode], notices, started)

def getRootItems : List TreeNode :=
  ["environmentconfigs", "compositions", "configurations", "deploymentruntimeconfigs",
   "xrds", "providers", "functions", "providerconfigs", "crossplane", "logs",
   "deployment-flow"].map
    (fun l => { label := l, collapsibleState := .collapsed })

structure GetChildrenResult where
  state : TreeState
  children : List TreeNode
  notices : List String
  fetched : Bool
deriving DecidableEq, Repr

/-- `CrossplaneExplorerProvider.getChildren` (lines 28-654), branch by
branch in source order.  `fetch` is the outcome of the (at most one)
`executeCommand` call the invocation makes; `fetched` records whether
that call was issued. -/
def getChildren (st : TreeState) (element : Option TreeNode) (fetch : CmdResult)
    (parseItems : String → Option (Option (List XItem)))
    (parseComposite : String → Option (List RRef))
    (excludeSuffixes : List String) : GetChildrenResult :=
  match element with
  | none =>
    let r := rootChildren st fetch parseItems
    ⟨r.1, r.2.1, r.2.2.1, r.2.2.2⟩
  | some el =>
    if el.label = "XPExplorer" then ⟨st, getRootItems, [], false⟩
    else if el.label = "logs" then
      ⟨st,
        [{ label := "providers", collapsibleState := .collapsed,
           resourceType := "logs-providers" },
         { label := "functions", collapsibleState := .collapsed,
           resourceType := "logs-functions" },
         { label := "crossplane", collapsibleState := .collapsed,
           resourceType := "logs-crossplane" }], [], false⟩
    else if el.resourceType = "logs-providers" then
      let r := logsPodsChildren "logs-provider-pod" "Error fetching provider pods: " fetch
      ⟨st, r.1, r.2, true⟩
    else if el.resourceType = "logs-functions" then
      let r := logsPodsChildren "logs-function-pod" "Error fetching function pods: " fetch
      ⟨st, r.1, r.2, true⟩
    else if el.resourceType = "logs-crossplane" then
      let r := logsPodsChildren "logs-crossplane-pod" "Error fetching crossplane pods: " fetch
      ⟨st, r.1, r.2, true⟩
    else if jsStartsWith el.resourceType "logs-" then ⟨st, [], [], false⟩
    else if el.label = "claim" then
      let r := claimListChildren fetch parseItems
      ⟨st, r.1, r.2, true⟩
    else if el.label = "deployment-flow" then
      let r := deploymentFlowBranch fetch parseItems
      ⟨st, r.1, r.2, true⟩
    else if el.contextValue = "deployment-flow-claim" then
      ⟨st, expandClaimChildren el, [], false⟩
    else if el.resourceType ≠ "" ∧
        (jsStartsWith el.resourceType "x" ∨ jsStartsWith el.resourceType "composite") then
      match fetch with
      | .reject msg => ⟨st, [], ["Error fetching composite children: " ++ msg], true⟩
      | .resolve stdout _ =>
        match parseComposite stdout with
        | none => ⟨st, [], ["Error fetching composite children: parse error"], true⟩
        | some refs => ⟨st, refs.map rrefNode, [], true⟩
    else if el.label = "providerconfigs" then
      let r := providerconfigsCategories fetch
      ⟨st, r.1, r.2, true⟩
    else if el.resourceType = "providerconfigs-category" ∧ el.resourceName ≠ "" then
      let r := providerconfigsCategoryChildren el fetch parseItems
      ⟨st, r.1, r.2, true⟩
    else if multiResourceTypes.contains
        (if el.label = "xrds" then "compositeresourcedefinitions" else el.label) then
      ⟨st, categorySliceChildren st el.label, [], false⟩
    else if el.label = "crossplane" ∧ el.resourceType = "" then
      let r := crossplanePodsChildren fetch parseItems
      ⟨st, r.1, r.2, true⟩
    else
      let r := genericChildren el.label fetch parseItems excludeSuffixes
      ⟨st, r.1, r.2, true⟩

/-- Two root-expansion requests with one outstanding combined fetch: the
second guard check runs at the first request's `await` suspension point
(lines 42-57), before either continuation has run. -/
def overlappingRootRequests (st0 : TreeState) (f1 f2 : CmdResult)
    (parseItems : String → Option (Option (List XItem))) : TreeState × Nat :=
  let r1 := rootPreloadStart st0
  let r2 := rootPreloadStart r1.1
  let s3 := rootPreloadFinish r1.2 f1 parseItems r2.1
  let s4 := rootPreloadFinish r2.2 f2 parseItems s3
  (s4, (if r1.2 then 1 else 0) + (if r2.2 then 1 else 0))

/-- C2 (code bug): with an empty cache, two overlapping root expansions
both pass the `!this.allResources && !this.loading` guard and issue two
combined `kubectl get` subprocess calls, because nothing ever sets
`loading := true` — the flag is initialized `false`, tested here and in
the category branch, and reset in `finally`, but no assignment makes it
`true`, so the guard cannot coalesce concurrent fetches to one. -/
theorem rootPreload_duplicate_fetch :
    (overlappingRootRequests ⟨none, false⟩ (.resolve "" "") (.resolve "" "")
      (fun _ => some (some []))).2 = 2 ∧
    (rootPreloadStart ⟨none, false⟩).1.loading = false := by
  constructor <;> rfl

/-- C7 counterexample: two composites whose claim references differ in
`kind` (`FOO` vs `foo`) but agree in `apiVersion`, `name` and
`namespace` are grouped into a single claim node — the grouping key
lowercases the kind (and qualifies it by the API group), so it is not
the `(kind, name, namespace)` triple of the claim reference. -/
theorem deploymentFlow_groupKey_counterexample :
    (ClaimRef.mk "FOO" "example.org/v1" "db" "ns").kind ≠
      (ClaimRef.mk "foo" "example.org/v1" "db" "ns").kind ∧
    deploymentFlowChildren
      [{ kind := "XDatabase", apiVersion := "example.org/v1", name := "xdb-a",
         claimRef := some ⟨"FOO", "example.org/v1", "db", "ns"⟩ },
       { kind := "XDatabase", apiVersion := "example.org/v1", name := "xdb-b",
         claimRef := some ⟨"foo", "example.org/v1", "db", "ns"⟩ }] =
      [claimNodeOf ⟨"FOO", "example.org/v1", "db", "ns"⟩
        [{ kind := "XDatabase", apiVersion := "example.org/v1", name := "xdb-a",
           claimRef := some ⟨"FOO", "example.org/v1", "db", "ns"⟩ },
         { kind := "XDatabase", apiVersion := "example.org/v1", name := "xdb-b",
           claimRef := some ⟨"foo", "example.org/v1", "db", "ns"⟩ }]] := by
  refine ⟨by decide, by decide⟩

/-- C7 (amended): the deployment-flow expansion groups composites by the
derived claim key (lowercased claim-ref kind qualified by the API group
of the claim-ref apiVersion, plus name and namespace) and turns
composites with neither a claim reference nor owner references into
root-XR nodes: three composites of which two carry an identical complete
claim reference and one carries neither yield exactly one claim node
whose expansion is those two composites, plus exactly one root-XR node. -/
theorem deploymentFlow_claim_grouping (r : ClaimRef) (c1 c2 c3 : XItem)
    (h1 : c1.claimRef = some r) (h2 : c2.claimRef = some r)
    (hr : claimRefComplete r = true)
    (h3 : c3.claimRef = none) (h3o : c3.ownerRefs = 0) :
    deploymentFlowChildren [c1, c2, c3] =
      [claimNodeOf r [c1, c2], xrNodeOfComposite c3] ∧
    expandClaimChildren (claimNodeOf r [c1, c2]) =
      [xrNodeOfComposite c1, xrNodeOfComposite c2] := by
  constructor
  · have hm : buildClaimsMap [c1, c2, c3] = [(claimKey r, (r, [c1, c2]))] := by
      simp only [buildClaimsMap, List.foldl_cons, List.foldl_nil, h1, h2, h3, hr,
        if_true, claimsMapInsert, eq_self_iff_true, List.singleton_append]
    have hx : [c1, c2, c3].filter
        (fun item => item.claimRef.isNone && item.ownerRefs == 0) = [c3] := by
      simp [List.filter, h1, h2, h3, h3o]
    simp only [deploymentFlowChildren, hm, hx, List.map_cons, List.map_nil,
      List.singleton_append, List.cons_append, List.nil_append]
  · simp only [expandClaimChildren, claimNodeOf, List.map_cons, List.map_nil]

/-- Witness for `deploymentFlow_claim_grouping` at three concrete
composites. -/
theorem deploymentFlow_claim_grouping_witness :
    deploymentFlowChildren
      [{ kind := "XNet", apiVersion := "example.org/v1", name := "xnet-1",
         claimRef := some ⟨"Net", "example.org/v1", "net", "team-a"⟩ },
       { kind := "XNet", apiVersion := "example.org/v1", name := "xnet-2",
         claimRef := some ⟨"Net", "example.org/v1", "net", "team-a"⟩ },
       { kind := "XCluster", apiVersion := "example.org/v1", name := "xc-root" }] =
      [claimNodeOf ⟨"Net", "example.org/v1", "net", "team-a"⟩
        [{ kind := "XNet", apiVersion := "example.org/v1", name := "xnet-1",
           claimRef := some ⟨"Net", "example.org/v1", "net", "team-a"⟩ },
         { kind := "XNet", apiVersion := "example.org/v1", name := "xnet-2",
           claimRef := some ⟨"Net", "example.org/v1", "net", "team-a"⟩ }],
       xrNodeOfComposite
        { kind := "XCluster", apiVersion := "example.org/v1", name := "xc-root" }] ∧
    expandClaimChildren (claimNodeOf ⟨"Net", "example.org/v1", "net", "team-a"⟩
        [{ kind := "XNet", apiVersion := "example.org/v1", name := "xnet-1",
           claimRef := some ⟨"Net", "example.org/v1", "net", "team-a"⟩ },
         { kind := "XNet", apiVersion := "example.org/v1", name := "xnet-2",
           claimRef := some ⟨"Net", "example.org/v1", "net", "team-a"⟩ }]) =
      [xrNodeOfComposite
        { kind := "XNet", apiVersion := "example.org/v1", name := "xnet-1",
          claimRef := some ⟨"Net", "example.org/v1", "net", "team-a"⟩ },
       xrNodeOfComposite
        { kind := "XNet", apiVersion := "example.org/v1", name := "xnet-2",
          claimRef := some ⟨"Net", "example.org/v1", "net", "team-a"⟩ }] :=
  deploymentFlow_claim_grouping ⟨"Net", "example.org/v1", "net", "team-a"⟩
    _ _ _ rfl rfl (by decide) rfl rfl

/-- C8 counterexample: at the tree root, a failing combined fetch
surfaces an error notification but resolves to the fixed `XPExplorer`
node — a one-element list, not an empty one (the empty result is only
cached for the category slices). -/
theorem rootFailure_children_counterexample :
    getChildren ⟨none, false⟩ none (.reject "connection refused")
      (fun _ => some (some [])) (fun _ => some [])
      ["crossplane.io", "upbound.io", "cattle.io"] =
    ⟨⟨some [], false⟩, [xpExplorerNode],
      ["Error fetching resources: connection refused"], true⟩ := by
  rfl

/-- C8 (amended): for every non-root tree node whose expansion issues a
subprocess call, a rejected call yields an error notification and an
empty child list; the embedding is a total function, so no exception
escapes the provider.  (At the root the failure is notified and cached
as an empty result set, but the fixed `XPExplorer` node is still
returned.) -/
theorem getChildren_failure_degrades (st : TreeState) (el : TreeNode) (msg : String)
    (parseItems : String → Option (Option (List XItem)))
    (parseComposite : String → Option (List RRef)) (excl : List String)
    (hf : (getChildren st (some el) (.reject msg) parseItems parseComposite excl).fetched
      = true) :
    (getChildren st (some el) (.reject msg) parseItems parseComposite excl).children
      = [] ∧
    (getChildren st (some el) (.reject msg) parseItems parseComposite excl).notices
      ≠ [] := by
  by_cases h1 : el.label = "XPExplorer"
  · simp [getChildren, h1] at hf
  by_cases h2 : el.label = "logs"
  · simp [getChildren, h1, h2] at hf
  by_cases h3 : el.resourceType = "logs-providers"
  · refine ⟨?_, ?_⟩ <;> simp [getChildren, h1, h2, h3, logsPodsChildren]
  by_cases h4 : el.resourceType = "logs-functions"
  · refine ⟨?_, ?_⟩ <;> simp [getChildren, h1, h2, h3, h4, logsPodsChildren]
  by_cases h5 : el.resourceType = "logs-crossplane"
  · refine ⟨?_, ?_⟩ <;> simp [getChildren, h1, h2, h3, h4, h5, logsPodsChildren]
  by_cases h6 : jsStartsWith el.resourceType "logs-" = true
  · simp [getChildren, h1, h2, h3, h4, h5, h6] at hf
  by_cases h7 : el.label = "claim"
  · refine ⟨?_, ?_⟩ <;>
      simp [getChildren, h1, h2, h3, h4, h5, h6, h7, claimListChildren]
  by_cases h8 : el.label = "deployment-flow"
  · refine ⟨?_, ?_⟩ <;>
      simp [getChildren, h1, h2, h3, h4, h5, h6, h7, h8, deploymentFlowBranch]
  by_cases h9 : el.contextValue = "deployment-flow-claim"
  · simp [getChildren, h1, h2, h3, h4, h5, h6, h7, h8, h9] at hf
  by_cases h10 : el.resourceType ≠ "" ∧
      (jsStartsWith el.resourceType "x" = true ∨
        jsStartsWith el.resourceType "composite" = true)
  · obtain ⟨h10a, h10b⟩ := h10
    refine ⟨?_, ?_⟩ <;>
      simp [getChildren, h1, h2, h3, h4, h5, h6, h7, h8, h9, h10a, h10b]
  by_cases h11 : el.label = "providerconfigs"
  · refine ⟨?_, ?_⟩ <;>
      simp [getChildren, h1, h2, h3, h4, h5, h6, h7, h8, h9, h10, h11,
        providerconfigsCategories]
  by_cases h12 : el.resourceType = "providerconfigs-category" ∧ el.resourceName ≠ ""
  · obtain ⟨h12a, h12b⟩ := h12
    have e1 : jsStartsWith "providerconfigs-category" "logs-" = false := by decide
    have e2 : jsStartsWith "providerconfigs-category" "x" = false := by decide
    have e3 : jsStartsWith "providerconfigs-category" "composite" = false := by decide
    refine ⟨?_, ?_⟩ <;>
      simp [getChildren, h1, h2, h7, h8, h9, h11, h12a, h12b, e1, e2, e3,
        providerconfigsCategoryChildren]
  by_cases h13 : (if el.label = "xrds" then "compositeresourcedefinitions" else el.label)
      ∈ multiResourceTypes
  · simp [getChildren, h1, h2, h3, h4, h5, h6, h7, h8, h9, h10, h11, h12, h13] at hf
  by_cases h14 : el.label = "crossplane" ∧ el.resourceType = ""
  · obtain ⟨h14a, h14b⟩ := h14
    have e1 : jsStartsWith "" "logs-" = false := by decide
    have e2 : jsStartsWith "" "x" = false := by decide
    have e3 : jsStartsWith "" "composite" = false := by decide
    refine ⟨?_, ?_⟩ <;>
      simp [getChildren, h7, h8, h9, h10, h11, h12, h13, h14a, h14b, e1, e2, e3,
        crossplanePodsChildren, multiResourceTypes]
  · refine ⟨?_, ?_⟩ <;>
      simp [getChildren, h1, h2, h3, h4, h5, h6, h7, h8, h9, h10, h11, h12, h13, h14,
        genericChildren]

/-- Witness for `getChildren_failure_degrades` at the `claim` category. -/
theorem getChildren_failure_degrades_witness :
    (getChildren ⟨none, false⟩
        (some { label := "claim", collapsibleState := .collapsed })
        (.reject "boom") (fun _ => some (some [])) (fun _ => some []) []).children
      = [] ∧
    (getChildren ⟨none, false⟩
        (some { label := "claim", collapsibleState := .collapsed })
        (.reject "boom") (fun _ => some (some [])) (fun _ => some []) []).notices
      ≠ [] :=
  getChildren_failure_degrades ⟨none, false⟩
    { label := "claim", collapsibleState := .collapsed } "boom"
    (fun _ => some (some [])) (fun _ => some []) [] rfl

/-- C10: pod label truncation in the logs categories.  A pod name longer
than 24 characters is displayed as its first 21 characters plus `...`
followed by the namespace in parentheses; a name of at most 24
characters is shown in full; in both cases the node's `resourceName` is
the full name.  The logs branches are exactly one such node per parsed
`NAMESPACE NAME` line. -/
theorem podNode_truncation (podType errPrefix ns name stdout : String) :
    ((makePodNode podType (ns, name)).resourceName = name) ∧
    (name.length > 24 →
      (makePodNode podType (ns, name)).label =
        name.take 21 ++ "..." ++ " (" ++ ns ++ ")") ∧
    (name.length ≤ 24 →
      (makePodNode podType (ns, name)).label = name ++ " (" ++ ns ++ ")") ∧
    (logsPodsChildren podType errPrefix (.resolve stdout "")).1 =
      (parsePodLines stdout).map (makePodNode podType) := by
  refine ⟨rfl, ?_, ?_, ?_⟩
  · intro h
    simp [makePodNode, h, String.append_assoc]
  · intro h
    have h' : ¬ name.length > 24 := by omega
    simp [makePodNode, h']
  · simp [logsPodsChildren]

/-- Witness for `podNode_truncation`: a 27-character pod name is
truncated to 21 characters plus `...`; a short name is kept whole. -/
theorem podNode_truncation_witness :
    (makePodNode "logs-provider-pod"
      ("crossplane-system", "provider-aws-1234567890abcd")).resourceName =
      "provider-aws-1234567890abcd" ∧
    (makePodNode "logs-provider-pod"
      ("crossplane-system", "provider-aws-1234567890abcd")).label =
      "provider-aws-1234567890abcd".take 21 ++ "..." ++
        " (" ++ "crossplane-system" ++ ")" ∧
    (makePodNode "logs-provider-pod" ("crossplane-system", "crossplane-abc")).label =
      "crossplane-abc" ++ " (" ++ "crossplane-system" ++ ")" :=
  ⟨(podNode_truncation "logs-provider-pod" "" "crossplane-system"
      "provider-aws-1234567890abcd" "").1,
   (podNode_truncation "logs-provider-pod" "" "crossplane-system"
      "provider-aws-1234567890abcd" "").2.1 (by decide),
   (podNode_truncation "logs-provider-pod" "" "crossplane-system"
      "crossplane-abc" "").2.2.1 (by decide)⟩

/-!
## Live-diff computation and rendering (`extension.ts`, `showDiff`,
lines 603-634, over the `deep-diff` library's `diff`)

`deep-diff` compares two parsed values recursively: a key present on one
side only yields a single `N`/`D` change at that key's path carrying the
whole subtree; values of different `realTypeOf`, or differing primitives,
yield an `E` change; arrays compare index-wise with extra tail indices
reported as `A` (array) changes wrapping an inner `N`/`D`.  Object keys
are visited in insertion order; array tails and the common prefix are
visited in descending index order, matching the library.  `showDiff`
then prints, per change, the parent path segments and one line —
`~ old → new`, `+ new` or `- old` — indented by path depth (an `A`
change falls through the `E`/`N`/`D` chain and prints an empty line).
-/

inductive DKey where
  | str (s : String)
  | idx (n : Nat)
deriving DecidableEq, Repr

/-- The inner `N`/`D` item of an `A` (array) change. -/
inductive ArrItemOp where
  | ins (rhs : Json)
  | del (lhs : Json)
deriving DecidableEq, Repr

/-- One `deep-diff` change record (kinds `E`, `N`, `D`, `A`). -/
inductive DChange where
  | edit (path : List DKey) (lhs rhs : Json)
  | added (path : List DKey) (rhs : Json)
  | removed (path : List DKey) (lhs : Json)
  | arrItem (path : List DKey) (index : Nat) (op : ArrItemOp)
deriving DecidableEq, Repr

/-- `realTypeOf` of deep-diff, restricted to JSON values. -/
def realTypeOf : Json → String
  | .null => "null"
  | .bool _ => "boolean"
  | .num _ => "number"
  | .str _ => "string"
  | .arr _ => "array"
  | .obj _ => "object"

/-- The `A` changes for the extra tail of the longer array (emitted in
descending index order before the common part is compared). -/
def diffArrExtra (path : List DKey) (la lb : List Json) : List DChange :=
  let n0 := la.length
  let n1 := lb.length
  if n1 > n0 then
    (List.range (n1 - n0)).map (fun t =>
      DChange.arrItem path (n1 - 1 - t) (.ins (lb.getD (n1 - 1 - t) .null)))
  else
    (List.range (n0 - n1)).map (fun t =>
      DChange.arrItem path (n0 - 1 - t) (.del (la.getD (n0 - 1 - t) .null)))

theorem one_le_sizeOf_list {α} [SizeOf α] (l : List α) : 1 ≤ sizeOf l := by
  cases l <;> simp only [List.nil.sizeOf_spec, List.cons.sizeOf_spec] <;> omega

theorem sizeOf_lt_of_mem_json {x : Json} {l : List Json} (h : x ∈ l) :
    1 + sizeOf x < sizeOf l := by
  induction h with
  | head t =>
    have := one_le_sizeOf_list t
    simp only [List.cons.sizeOf_spec]
    omega
  | tail b _ ih =>
    simp only [List.cons.sizeOf_spec]
    omega

theorem sizeOf_lookupJ_lt : ∀ {l : List (String × Json)} {k : String} {v : Json},
    lookupJ l k = some v → 1 + sizeOf v < sizeOf l := by
  intro l
  induction l with
  | nil =>
    intro k v h
    simp [lookupJ] at h
  | cons kv t ih =>
    intro k v h
    obtain ⟨k0, w⟩ := kv
    have ht := one_le_sizeOf_list t
    by_cases h0 : k0 = k
    · simp [lookupJ, h0] at h
      subst h
      simp only [List.cons.sizeOf_spec, Prod.mk.sizeOf_spec]
      omega
    · simp [lookupJ, h0] at h
      have := ih h
      simp only [List.cons.sizeOf_spec, Prod.mk.sizeOf_spec]
      omega

mutual

/-- `deepDiff(lhs, rhs, path)` of deep-diff (`undefined` is `none`). -/
def diffRec (path : List DKey) : Option Json → Option Json → List DChange
  | none, none => []
  | none, some r => [.added path r]
  | some l, none => [.removed path l]
  | some l, some r =>
    if realTypeOf l ≠ realTypeOf r then [.edit path l r]
    else
      match l, r with
      | .arr la, .arr lb =>
        diffArrExtra path la lb ++ diffCommon path (min la.length lb.length) la lb
      | .obj la, .obj lb =>
        diffObjKeys path (la.map Prod.fst) la lb ++
        ((lb.filter (fun kv => lookupJ la kv.1 = none)).map
          (fun kv => DChange.added (path ++ [.str kv.1]) kv.2))
      | l, r => if l ≠ r then [.edit path l r] else []
termination_by o1 o2 => (sizeOf o1, 1, 0)
decreasing_by
  · simp_wf
    simp only [Prod.lex_def, true_and, lt_self_iff_false, false_or] <;> omega
  · simp_wf
    simp only [Prod.lex_def, true_and, lt_self_iff_false, false_or] <;> omega

/-- The common-index comparison of two arrays, index `j-1` down to `0`. -/
def diffCommon (path : List DKey) : Nat → List Json → List Json → List DChange
  | 0, _, _ => []
  | j + 1, la, lb =>
    (match hx : la[j]?, lb[j]? with
     | some x, some y => diffRec (path ++ [.idx j]) (some x) (some y)
     | _, _ => []) ++ diffCommon path j la lb
termination_by j la lb => (sizeOf la + 2, 0, j)
decreasing_by
  · simp_wf
    have := sizeOf_lt_of_mem_json (List.getElem?_mem hx)
    simp only [Prod.lex_def, true_and, lt_self_iff_false, false_or] <;> omega
  · simp_wf
    simp only [Prod.lex_def, true_and, lt_self_iff_false, false_or] <;> omega

/-- The per-key comparison of two objects over the lhs key list
(`akeys` of the library; keys only in `rhs` are handled afterwards). -/
def diffObjKeys (path : List DKey) :
    List String → List (String × Json) → List (String × Json) → List DChange
  | [], _, _ => []
  | k :: ks, la, lb =>
    (match hv : lookupJ la k, lookupJ lb k with
     | some v, some w => diffRec (path ++ [.str k]) (some v) (some w)
     | some v, none => [DChange.removed (path ++ [.str k]) v]
     | none, _ => []) ++ diffObjKeys path ks la lb
termination_by ks la lb => (sizeOf la + 2, 0, ks.length)
decreasing_by
  · simp_wf
    have := sizeOf_lookupJ_lt hv
    simp only [Prod.lex_def, true_and, lt_self_iff_false, false_or] <;> omega
  · simp_wf
    simp only [Prod.lex_def, true_and, lt_self_iff_false, false_or] <;> omega

end

/-- `deepDiff.diff(lhs, rhs)` (accumulated changes; the library returns
`undefined` for an empty list, which `showDiff` treats like `[]`). -/
def jsDiff (a b : Json) : List DChange :=
  diffRec [] (some a) (some b)

/-- Escape `"` and backslash as in `JSON.stringify` (control characters do
not occur in the values under study). -/
def escapeJsonChars : List Char → List Char
  | [] => []
  | c :: t =>
    if c = '"' ∨ c = '\\' then '\\' :: c :: escapeJsonChars t
    else c :: escapeJsonChars t

def quoteS (s : String) : String :=
  "\"" ++ ⟨escapeJsonChars s.data⟩ ++ "\""

theorem sizeOf_snd_lt_of_mem {p : String × Json} {l : List (String × Json)}
    (h : p ∈ l) : 1 + sizeOf p.2 < sizeOf l := by
  induction h with
  | head t =>
    obtain ⟨k, v⟩ := p
    simp only [List.cons.sizeOf_spec, Prod.mk.sizeOf_spec]
    have := one_le_sizeOf_list t
    omega
  | tail b _ ih =>
    simp only [List.cons.sizeOf_spec]
    omega

/-- `JSON.stringify` on parsed JSON values. -/
def stringifyJson : Json → String
  | .null => "null"
  | .bool true => "true"
  | .bool false => "false"
  | .num n => toString n
  | .str s => quoteS s
  | .arr l =>
    "[" ++ String.intercalate "," (l.attach.map (fun x => stringifyJson x.1)) ++ "]"
  | .obj l =>
    "\x7b" ++ String.intercalate ","
      (l.attach.map (fun kv => quoteS kv.1.1 ++ ":" ++ stringifyJson kv.1.2)) ++ "\x7d"
decreasing_by
  · have := sizeOf_lt_of_mem_json x.2
    simp_wf
    omega
  · have := sizeOf_snd_lt_of_mem kv.2
    simp_wf
    omega

/-- A path segment interpolated into a template string. -/
def keyToString : DKey → String
  | .str s => s
  | .idx n => toString n

/-- `'  '.repeat(level)`. -/
def indentStr (level : Nat) : String :=
  String.join (List.replicate level "  ")

def pathOf : DChange → List DKey
  | .edit p _ _ => p
  | .added p _ => p
  | .removed p _ => p
  | .arrItem p _ _ => p

/-- The single `line` built for a change (kind `A` leaves it empty). -/
def lineOf : DChange → String
  | .edit p l r =>
    indentStr (p.length - 1) ++ keyToString (p.getD (p.length - 1) (.str "")) ++ ":\n" ++
      indentStr p.length ++ "~ " ++ stringifyJson l ++ " → " ++ stringifyJson r
  | .added p r =>
    indentStr (p.length - 1) ++ keyToString (p.getD (p.length - 1) (.str "")) ++ ":\n" ++
      indentStr p.length ++ "+ " ++ stringifyJson r
  | .removed p l =>
    indentStr (p.length - 1) ++ keyToString (p.getD (p.length - 1) (.str "")) ++ ":\n" ++
      indentStr p.length ++ "- " ++ stringifyJson l
  | .arrItem _ _ _ => ""

/-- The lines `showDiff` appends for one change: nothing for an empty
path, else the parent segments (when the path has depth) and the line. -/
def renderChange (c : DChange) : List String :=
  if (pathOf c).length = 0 then []
  else
    (if (pathOf c).length > 1 then
      (List.range ((pathOf c).length - 1)).map
        (fun i => indentStr i ++ keyToString ((pathOf c).getD i (.str "")) ++ ":")
    else []) ++ [lineOf c]

def renderDiff (changes : List DChange) : List String :=
  (changes.map renderChange).flatten

/-- `showDiff` modulo the YAML/JSON round trip: the lines appended to the
output channel for two parsed documents (`yaml.load(...) || {}`). -/
def showDiffRender (a b : Json) : List String :=
  renderDiff (jsDiff (if jsTruthy a then a else .obj [])
                     (if jsTruthy b then b else .obj []))

/-- Navigate a parsed value along a diff path. -/
def followPath : Json → List DKey → Option Json
  | j, [] => some j
  | .obj l, .str k :: p =>
    match lookupJ l k with
    | some v => followPath v p
    | none => none
  | .arr l, .idx i :: p =>
    match l[i]? with
    | some v => followPath v p
    | none => none
  | _, _ => none

/-- A leaf value: neither an array nor an object. -/
def isPrim : Json → Bool
  | .arr _ => false
  | .obj _ => false
  | _ => true

theorem one_le_sizeOf_json (a : Json) : 1 ≤ sizeOf a := by
  cases a <;> simp <;> omega

theorem lookupJ_ne_none_of_mem : ∀ {l : List (String × Json)} {k : String} {v : Json},
    (k, v) ∈ l → lookupJ l k ≠ none := by
  intro l
  induction l with
  | nil =>
    intro k v h
    simp at h
  | cons kv t ih =>
    intro k v h
    obtain ⟨k0, w⟩ := kv
    by_cases h0 : k0 = k
    · simp [lookupJ, h0]
    · simp only [lookupJ, h0, if_false]
      rcases List.mem_cons.mp h with h1 | h1
      · injection h1 with hk hv
        exact absurd hk.symm h0
      · exact ih h1

theorem diffArrExtra_self (p : List DKey) (l : List Json) : diffArrExtra p l l = [] := by
  simp [diffArrExtra]

theorem diffRec_obj_obj (p : List DKey) (la lb : List (String × Json)) :
    diffRec p (some (.obj la)) (some (.obj lb)) =
      diffObjKeys p (la.map Prod.fst) la lb ++
        ((lb.filter (fun kv => lookupJ la kv.1 = none)).map
          (fun kv => DChange.added (p ++ [.str kv.1]) kv.2)) := by
  simp [diffRec, realTypeOf]

theorem diffRec_arr_arr (p : List DKey) (la lb : List Json) :
    diffRec p (some (.arr la)) (some (.arr lb)) =
      diffArrExtra p la lb ++ diffCommon p (min la.length lb.length) la lb := by
  simp [diffRec, realTypeOf]

theorem diffCommon_zero (p : List DKey) (la lb : List Json) :
    diffCommon p 0 la lb = [] := by
  simp [diffCommon]

theorem diffCommon_succ_none {j : Nat} {la lb : List Json} (p : List DKey)
    (hx : la[j]? = none) :
    diffCommon p (j + 1) la lb = diffCommon p j la lb := by
  simp only [diffCommon]
  split
  · rename_i heq _
    rw [hx] at heq
    exact absurd heq (by simp)
  · simp

theorem diffCommon_succ_some {j : Nat} {la lb : List Json} {x y : Json} (p : List DKey)
    (hx : la[j]? = some x) (hy : lb[j]? = some y) :
    diffCommon p (j + 1) la lb =
      diffRec (p ++ [.idx j]) (some x) (some y) ++ diffCommon p j la lb := by
  simp only [diffCommon]
  split
  · rename_i heq1 heq2
    rw [hx] at heq1
    rw [hy] at heq2
    cases heq1
    cases heq2
    rfl
  · rename_i hne
    exact (hne x y hx hy).elim

theorem diffObjKeys_nil (p : List DKey) (la lb : List (String × Json)) :
    diffObjKeys p [] la lb = [] := by
  simp [diffObjKeys]

theorem diffObjKeys_cons_both {k : String} {ks : List String}
    {la lb : List (String × Json)} {v w : Json} (p : List DKey)
    (hv : lookupJ la k = some v) (hw : lookupJ lb k = some w) :
    diffObjKeys p (k :: ks) la lb =
      diffRec (p ++ [.str k]) (some v) (some w) ++ diffObjKeys p ks la lb := by
  simp only [diffObjKeys]
  split
  · rename_i heq1 heq2
    rw [hv] at heq1
    rw [hw] at heq2
    cases heq1
    cases heq2
    rfl
  · rename_i heq1 heq2
    rw [hv] at heq1
    rw [hw] at heq2
    cases heq1
    exact absurd heq2 (by simp)
  · rename_i heq
    rw [hv] at heq
    exact absurd heq (by simp)

theorem diffObjKeys_cons_del {k : String} {ks : List String}
    {la lb : List (String × Json)} {v : Json} (p : List DKey)
    (hv : lookupJ la k = some v) (hw : lookupJ lb k = none) :
    diffObjKeys p (k :: ks) la lb =
      DChange.removed (p ++ [.str k]) v :: diffObjKeys p ks la lb := by
  simp only [diffObjKeys]
  split
  · rename_i heq1 heq2
    rw [hw] at heq2
    exact absurd heq2 (by simp)
  · rename_i heq1 heq2
    rw [hv] at heq1
    cases heq1
    rfl
  · rename_i heq
    rw [hv] at heq
    exact absurd heq (by simp)

theorem diffObjKeys_cons_absent {k : String} {ks : List String}
    {la lb : List (String × Json)} (p : List DKey)
    (hv : lookupJ la k = none) :
    diffObjKeys p (k :: ks) la lb = diffObjKeys p ks la lb := by
  simp only [diffObjKeys]
  split
  · rename_i heq1 _
    rw [hv] at heq1
    exact absurd heq1 (by simp)
  · rename_i heq1 _
    rw [hv] at heq1
    exact absurd heq1 (by simp)
  · simp

theorem diffCommon_self (la : List Json) (p : List DKey)
    (h : ∀ x ∈ la, ∀ p', diffRec p' (some x) (some x) = []) :
    ∀ j, diffCommon p j la la = [] := by
  intro j
  induction j with
  | zero => exact diffCommon_zero p la la
  | succ m ih =>
    cases hx : la[m]? with
    | none => rw [diffCommon_succ_none p hx, ih]
    | some x =>
      rw [diffCommon_succ_some p hx hx, h x (List.getElem?_mem hx) _, ih]
      rfl

theorem diffObjKeys_self (la : List (String × Json)) (p : List DKey)
    (h : ∀ k v, lookupJ la k = some v → ∀ p', diffRec p' (some v) (some v) = []) :
    ∀ ks, diffObjKeys p ks la la = [] := by
  intro ks
  induction ks with
  | nil => exact diffObjKeys_nil p la la
  | cons k ks ih =>
    cases hv : lookupJ la k with
    | none => rw [diffObjKeys_cons_absent p hv, ih]
    | some v =>
      rw [diffObjKeys_cons_both p hv hv, h k v hv _, ih]
      rfl

theorem filter_lookup_self (la : List (String × Json)) :
    la.filter (fun kv => lookupJ la kv.1 = none) = [] := by
  rw [List.filter_eq_nil_iff]
  intro kv hkv
  obtain ⟨k, v⟩ := kv
  have := lookupJ_ne_none_of_mem hkv
  simp [this]

theorem diffRec_self (a : Json) : ∀ p, diffRec p (some a) (some a) = [] := by
  suffices h : ∀ n (a : Json), sizeOf a ≤ n → ∀ p, diffRec p (some a) (some a) = [] from
    h (sizeOf a) a le_rfl
  intro n
  induction n with
  | zero =>
    intro a ha
    have := one_le_sizeOf_json a
    omega
  | succ m ih =>
    intro a ha p
    cases a with
    | null => simp [diffRec, realTypeOf]
    | bool b => simp [diffRec, realTypeOf]
    | num n0 => simp [diffRec, realTypeOf]
    | str s => simp [diffRec, realTypeOf]
    | arr la =>
      have hs : sizeOf la ≤ m := by
        simp only [Json.arr.sizeOf_spec] at ha
        omega
      rw [diffRec_arr_arr, diffArrExtra_self,
        diffCommon_self la p (fun x hx p' =>
          ih x (by have := sizeOf_lt_of_mem_json hx; omega) p')]
      rfl
    | obj la =>
      have hs : sizeOf la ≤ m := by
        simp only [Json.obj.sizeOf_spec] at ha
        omega
      rw [diffRec_obj_obj,
        diffObjKeys_self la p (fun k v hv p' =>
          ih v (by have := sizeOf_lookupJ_lt hv; omega) p'),
        filter_lookup_self]
      rfl

theorem jsDiff_self (a : Json) : jsDiff a a = [] :=
  diffRec_self a []

theorem showDiffRender_self (a : Json) : showDiffRender a a = [] := by
  simp [showDiffRender, renderDiff, jsDiff_self]

theorem mem_of_lookupJ : ∀ {l : List (String × Json)} {k : String} {v : Json},
    lookupJ l k = some v → (k, v) ∈ l := by
  intro l
  induction l with
  | nil =>
    intro k v h
    simp [lookupJ] at h
  | cons kv t ih =>
    intro k v h
    obtain ⟨k0, w⟩ := kv
    by_cases h0 : k0 = k
    · simp [lookupJ, h0] at h
      subst h0
      subst h
      exact List.mem_cons_self _ _
    · simp [lookupJ, h0] at h
      exact List.mem_cons_of_mem _ (ih h)

theorem diffCommon_succ_mixed {j : Nat} {la lb : List Json} {x : Json} (p : List DKey)
    (hx : la[j]? = some x) (hy : lb[j]? = none) :
    diffCommon p (j + 1) la lb = diffCommon p j la lb := by
  simp only [diffCommon]
  split
  · rename_i heq1 heq2
    rw [hy] at heq2
    exact absurd heq2 (by simp)
  · simp

theorem mem_diffObjKeys_of_both {k : String} {la lb : List (String × Json)}
    {v w : Json} {c : DChange} (p : List DKey) :
    ∀ {ks : List String}, k ∈ ks → lookupJ la k = some v → lookupJ lb k = some w →
      c ∈ diffRec (p ++ [.str k]) (some v) (some w) →
      c ∈ diffObjKeys p ks la lb := by
  intro ks
  induction ks with
  | nil =>
    intro hk
    simp at hk
  | cons k0 ks ih =>
    intro hk hv hw hc
    rcases List.mem_cons.mp hk with h0 | h0
    · subst h0
      rw [diffObjKeys_cons_both p hv hw]
      exact List.mem_append_left _ hc
    · cases hx : lookupJ la k0 with
      | none =>
        rw [diffObjKeys_cons_absent p hx]
        exact ih h0 hv hw hc
      | some v0 =>
        cases hy : lookupJ lb k0 with
        | none =>
          rw [diffObjKeys_cons_del p hx hy]
          exact List.mem_cons_of_mem _ (ih h0 hv hw hc)
        | some w0 =>
          rw [diffObjKeys_cons_both p hx hy]
          exact List.mem_append_right _ (ih h0 hv hw hc)

theorem mem_diffObjKeys_del {k : String} {la lb : List (String × Json)}
    {v : Json} (p : List DKey) :
    ∀ {ks : List String}, k ∈ ks → lookupJ la k = some v → lookupJ lb k = none →
      DChange.removed (p ++ [.str k]) v ∈ diffObjKeys p ks la lb := by
  intro ks
  induction ks with
  | nil =>
    intro hk
    simp at hk
  | cons k0 ks ih =>
    intro hk hv hw
    rcases List.mem_cons.mp hk with h0 | h0
    · subst h0
      rw [diffObjKeys_cons_del p hv hw]
      exact List.mem_cons_self _ _
    · cases hx : lookupJ la k0 with
      | none =>
        rw [diffObjKeys_cons_absent p hx]
        exact ih h0 hv hw
      | some v0 =>
        cases hy : lookupJ lb k0 with
        | none =>
          rw [diffObjKeys_cons_del p hx hy]
          exact List.mem_cons_of_mem _ (ih h0 hv hw)
        | some w0 =>
          rw [diffObjKeys_cons_both p hx hy]
          exact List.mem_append_right _ (ih h0 hv hw)

theorem removed_mem_diffRec_obj {la lb : List (String × Json)} {k : String} {v : Json}
    (p : List DKey) (hv : lookupJ la k = some v) (hw : lookupJ lb k = none) :
    DChange.removed (p ++ [.str k]) v ∈ diffRec p (some (.obj la)) (some (.obj lb)) := by
  rw [diffRec_obj_obj]
  refine List.mem_append_left _ (mem_diffObjKeys_del p ?_ hv hw)
  exact List.mem_map_of_mem Prod.fst (mem_of_lookupJ hv)

theorem added_mem_diffRec_obj {la lb : List (String × Json)} {k : String} {w : Json}
    (p : List DKey) (hv : lookupJ la k = none) (hw : lookupJ lb k = some w) :
    DChange.added (p ++ [.str k]) w ∈ diffRec p (some (.obj la)) (some (.obj lb)) := by
  rw [diffRec_obj_obj]
  refine List.mem_append_right _ ?_
  have hmem : (k, w) ∈ lb.filter (fun kv => lookupJ la kv.1 = none) := by
    rw [List.mem_filter]
    exact ⟨mem_of_lookupJ hw, by simp [hv]⟩
  exact List.mem_map_of_mem _ hmem

theorem edit_mem_diffRec (p : List DKey) (l r : Json)
    (h : realTypeOf l ≠ realTypeOf r ∨ (isPrim l = true ∧ l ≠ r)) :
    DChange.edit p l r ∈ diffRec p (some l) (some r) := by
  by_cases ht : realTypeOf l = realTypeOf r
  · have hp : isPrim l = true ∧ l ≠ r := by
      rcases h with h | h
      · exact absurd ht h
      · exact h
    obtain ⟨hp1, hne⟩ := hp
    cases l <;> cases r <;> simp_all [realTypeOf, isPrim, diffRec]
  · simp only [diffRec.eq_def]
    rw [if_pos ht]
    exact List.mem_singleton.mpr rfl

theorem mem_diffCommon {la lb : List Json} {i : Nat} {x y : Json} {c : DChange}
    (p : List DKey) :
    ∀ {m : Nat}, i < m → la[i]? = some x → lb[i]? = some y →
      c ∈ diffRec (p ++ [.idx i]) (some x) (some y) →
      c ∈ diffCommon p m la lb := by
  intro m
  induction m with
  | zero =>
    intro hm
    omega
  | succ j ih =>
    intro hm hx hy hc
    by_cases hij : i = j
    · subst hij
      rw [diffCommon_succ_some p hx hy]
      exact List.mem_append_left _ hc
    · have hij' : i < j := by omega
      cases hx0 : la[j]? with
      | none =>
        rw [diffCommon_succ_none p hx0]
        exact ih hij' hx hy hc
      | some x0 =>
        cases hy0 : lb[j]? with
        | none =>
          rw [diffCommon_succ_mixed p hx0 hy0]
          exact ih hij' hx hy hc
        | some y0 =>
          rw [diffCommon_succ_some p hx0 hy0]
          exact List.mem_append_right _ (ih hij' hx hy hc)

theorem jsTruthy_of_followPath {a : Json} {d : DKey} {q : List DKey} {v : Json}
    (h : followPath a (d :: q) = some v) : jsTruthy a = true := by
  cases a <;> cases d <;> simp [followPath, jsTruthy] at h ⊢

theorem mem_diffRec_descend :
    ∀ (q p : List DKey) (a b a' b' : Json) (c : DChange),
      followPath a q = some a' → followPath b q = some b' →
      c ∈ diffRec (p ++ q) (some a') (some b') →
      c ∈ diffRec p (some a) (some b) := by
  intro q
  induction q with
  | nil =>
    intro p a b a' b' c ha hb hc
    simp [followPath] at ha hb
    subst ha
    subst hb
    simpa using hc
  | cons d q ih =>
    intro p a b a' b' c ha hb hc
    cases d with
    | str k =>
      cases a with
      | obj la =>
        cases b with
        | obj lb =>
          cases hva : lookupJ la k with
          | none => simp [followPath, hva] at ha
          | some va =>
            cases hvb : lookupJ lb k with
            | none => simp [followPath, hvb] at hb
            | some vb =>
              rw [followPath, hva] at ha
              rw [followPath, hvb] at hb
              rw [List.append_cons] at hc
              have hmem := ih (p ++ [.str k]) va vb a' b' c ha hb hc
              rw [diffRec_obj_obj]
              refine List.mem_append_left _
                (mem_diffObjKeys_of_both p ?_ hva hvb hmem)
              exact List.mem_map_of_mem Prod.fst (mem_of_lookupJ hva)
        | null => simp [followPath] at hb
        | bool b0 => simp [followPath] at hb
        | num n0 => simp [followPath] at hb
        | str s0 => simp [followPath] at hb
        | arr l0 => simp [followPath] at hb
      | null => simp [followPath] at ha
      | bool b0 => simp [followPath] at ha
      | num n0 => simp [followPath] at ha
      | str s0 => simp [followPath] at ha
      | arr l0 => simp [followPath] at ha
    | idx i =>
      cases a with
      | arr la =>
        cases b with
        | arr lb =>
          cases hva : la[i]? with
          | none => simp [followPath, hva] at ha
          | some va =>
            cases hvb : lb[i]? with
            | none => simp [followPath, hvb] at hb
            | some vb =>
              rw [followPath, hva] at ha
              rw [followPath, hvb] at hb
              rw [List.append_cons] at hc
              have hmem := ih (p ++ [.idx i]) va vb a' b' c ha hb hc
              rw [diffRec_arr_arr]
              refine List.mem_append_right _ (mem_diffCommon p ?_ hva hvb hmem)
              have h1 := (List.getElem?_eq_some_iff.mp hva).1
              have h2 := (List.getElem?_eq_some_iff.mp hvb).1
              omega
        | null => simp [followPath] at hb
        | bool b0 => simp [followPath] at hb
        | num n0 => simp [followPath] at hb
        | str s0 => simp [followPath] at hb
        | obj l0 => simp [followPath] at hb
      | null => simp [followPath] at ha
      | bool b0 => simp [followPath] at ha
      | num n0 => simp [followPath] at ha
      | str s0 => simp [followPath] at ha
      | obj l0 => simp [followPath] at ha

theorem lineOf_mem_renderDiff {c : DChange} {changes : List DChange}
    (hc : c ∈ changes) (hp : pathOf c ≠ []) : lineOf c ∈ renderDiff changes := by
  unfold renderDiff
  refine List.mem_flatten.mpr ⟨renderChange c, List.mem_map_of_mem _ hc, ?_⟩
  unfold renderChange
  have hlen : ¬(pathOf c).length = 0 := by
    simpa [List.length_eq_zero] using hp
  rw [if_neg hlen]
  exact List.mem_append_right _ (List.mem_singleton.mpr rfl)

theorem showDiffRender_of_truthy {a b : Json} (ha : jsTruthy a = true)
    (hb : jsTruthy b = true) : showDiffRender a b = renderDiff (jsDiff a b) := by
  simp [showDiffRender, ha, hb]

theorem jsTruthy_of_followPath_obj {a : Json} {q : List DKey}
    {la : List (String × Json)} (h : followPath a q = some (.obj la)) :
    jsTruthy a = true := by
  cases q with
  | nil =>
    simp [followPath] at h
    subst h
    rfl
  | cons d q => exact jsTruthy_of_followPath h

/-- C4 (amended): rendering the diff of an object against itself emits no
lines; a key held by the old object and missing from the new one at a
common path is rendered as one removal line at that key (carrying the
whole old subtree, not one line per leaf below it); symmetrically for an
added key; and a leaf (primitive) position present on both sides with
different values is rendered as an edit line at that leaf's path. -/
theorem showDiff_renders_divergence :
    (∀ a : Json, showDiffRender a a = []) ∧
    (∀ (a b : Json) (q : List DKey) (k : String) (v : Json)
        (la lb : List (String × Json)),
      followPath a q = some (.obj la) → followPath b q = some (.obj lb) →
      lookupJ la k = some v → lookupJ lb k = none →
      DChange.removed (q ++ [.str k]) v ∈ jsDiff a b ∧
      lineOf (DChange.removed (q ++ [.str k]) v) ∈ showDiffRender a b) ∧
    (∀ (a b : Json) (q : List DKey) (k : String) (w : Json)
        (la lb : List (String × Json)),
      followPath a q = some (.obj la) → followPath b q = some (.obj lb) →
      lookupJ la k = none → lookupJ lb k = some w →
      DChange.added (q ++ [.str k]) w ∈ jsDiff a b ∧
      lineOf (DChange.added (q ++ [.str k]) w) ∈ showDiffRender a b) ∧
    (∀ (a b : Json) (p : List DKey) (va vb : Json),
      p ≠ [] → followPath a p = some va → followPath b p = some vb →
      isPrim va = true → isPrim vb = true → va ≠ vb →
      DChange.edit p va vb ∈ jsDiff a b ∧
      lineOf (DChange.edit p va vb) ∈ showDiffRender a b) := by
  refine ⟨showDiffRender_self, ?_, ?_, ?_⟩
  · intro a b q k v la lb ha hb hv hw
    have hbase := removed_mem_diffRec_obj q hv hw
    have hd : DChange.removed (q ++ [DKey.str k]) v ∈ jsDiff a b := by
      unfold jsDiff
      exact mem_diffRec_descend q [] a b _ _ _ ha hb (by simpa using hbase)
    refine ⟨hd, ?_⟩
    rw [showDiffRender_of_truthy (jsTruthy_of_followPath_obj ha)
      (jsTruthy_of_followPath_obj hb)]
    exact lineOf_mem_renderDiff hd (by simp [pathOf])
  · intro a b q k w la lb ha hb hv hw
    have hbase := added_mem_diffRec_obj q hv hw
    have hd : DChange.added (q ++ [DKey.str k]) w ∈ jsDiff a b := by
      unfold jsDiff
      exact mem_diffRec_descend q [] a b _ _ _ ha hb (by simpa using hbase)
    refine ⟨hd, ?_⟩
    rw [showDiffRender_of_truthy (jsTruthy_of_followPath_obj ha)
      (jsTruthy_of_followPath_obj hb)]
    exact lineOf_mem_renderDiff hd (by simp [pathOf])
  · intro a b p va vb hp hpa hpb hprima hprimb hne
    have hbase := edit_mem_diffRec p va vb (Or.inr ⟨hprima, hne⟩)
    have hd : DChange.edit p va vb ∈ jsDiff a b := by
      unfold jsDiff
      exact mem_diffRec_descend p [] a b _ _ _ hpa hpb (by simpa using hbase)
    refine ⟨hd, ?_⟩
    obtain ⟨d, q', rfl⟩ : ∃ d q', p = d :: q' := by
      cases p with
      | nil => exact absurd rfl hp
      | cons d q' => exact ⟨d, q', rfl⟩
    rw [showDiffRender_of_truthy (jsTruthy_of_followPath hpa)
      (jsTruthy_of_followPath hpb)]
    exact lineOf_mem_renderDiff hd (by simp [pathOf])

/-- C4 counterexample: for A = \x7b a: \x7b b: 1 \x7d \x7d and B = \x7b \x7d,
the leaf path a.b is present in A (value 1, a primitive) and absent in B,
yet the diff contains no removal record for that leaf path: deep-diff
reports the divergence once, at the highest diverging key `a`, carrying
the whole subtree, and `showDiff` renders exactly that one subtree
removal line — not a removal line per missing leaf. -/
theorem showDiff_leaf_removal_counterexample :
    followPath (Json.obj [("a", Json.obj [("b", Json.num 1)])])
      [DKey.str "a", DKey.str "b"] = some (Json.num 1) ∧
    isPrim (Json.num 1) = true ∧
    followPath (Json.obj []) [DKey.str "a", DKey.str "b"] = none ∧
    DChange.removed [DKey.str "a", DKey.str "b"] (Json.num 1)
      ∉ jsDiff (Json.obj [("a", Json.obj [("b", Json.num 1)])]) (Json.obj []) ∧
    showDiffRender (Json.obj [("a", Json.obj [("b", Json.num 1)])]) (Json.obj [])
      = [lineOf (DChange.removed [DKey.str "a"] (Json.obj [("b", Json.num 1)]))] := by
  have h1 : jsDiff (Json.obj [("a", Json.obj [("b", Json.num 1)])]) (Json.obj [])
      = [DChange.removed [DKey.str "a"] (Json.obj [("b", Json.num 1)])] := by
    unfold jsDiff
    rw [diffRec_obj_obj]
    simp only [List.map_cons, List.map_nil]
    rw [@diffObjKeys_cons_del "a" [] [("a", Json.obj [("b", Json.num 1)])] []
      (Json.obj [("b", Json.num 1)]) [] (by simp [lookupJ]) rfl, diffObjKeys_nil]
    simp
  refine ⟨rfl, rfl, rfl, ?_, ?_⟩
  · rw [h1]
    decide
  · rw [@showDiffRender_of_truthy (Json.obj [("a", Json.obj [("b", Json.num 1)])])
      (Json.obj []) rfl rfl, h1]
    simp [renderDiff, renderChange, pathOf]

/-- Witness for C4 (amended) at concrete inputs: self-diff of
\x7b x: 1 \x7d renders nothing; removing, adding, or editing the key `x`
yields the corresponding change record, and the edit is rendered. -/
theorem showDiff_renders_divergence_witness :
    showDiffRender (Json.obj [("x", Json.num 1)]) (Json.obj [("x", Json.num 1)]) = [] ∧
    DChange.removed [DKey.str "x"] (Json.num 1)
      ∈ jsDiff (Json.obj [("x", Json.num 1)]) (Json.obj []) ∧
    DChange.added [DKey.str "x"] (Json.num 1)
      ∈ jsDiff (Json.obj []) (Json.obj [("x", Json.num 1)]) ∧
    DChange.edit [DKey.str "x"] (Json.num 1) (Json.num 2)
      ∈ jsDiff (Json.obj [("x", Json.num 1)]) (Json.obj [("x", Json.num 2)]) ∧
    lineOf (DChange.edit [DKey.str "x"] (Json.num 1) (Json.num 2))
      ∈ showDiffRender (Json.obj [("x", Json.num 1)]) (Json.obj [("x", Json.num 2)]) :=
  ⟨showDiff_renders_divergence.1 (Json.obj [("x", Json.num 1)]),
   (showDiff_renders_divergence.2.1 (Json.obj [("x", Json.num 1)]) (Json.obj [])
      [] "x" (Json.num 1) [("x", Json.num 1)] [] rfl rfl rfl rfl).1,
   (showDiff_renders_divergence.2.2.1 (Json.obj []) (Json.obj [("x", Json.num 1)])
      [] "x" (Json.num 1) [] [("x", Json.num 1)] rfl rfl rfl rfl).1,
   (showDiff_renders_divergence.2.2.2 (Json.obj [("x", Json.num 1)])
      (Json.obj [("x", Json.num 2)]) [DKey.str "x"] (Json.num 1) (Json.num 2)
      (by decide) rfl rfl rfl rfl (by decide)).1,
   (showDiff_renders_divergence.2.2.2 (Json.obj [("x", Json.num 1)])
      (Json.obj [("x", Json.num 2)]) [DKey.str "x"] (Json.num 1) (Json.num 2)
      (by decide) rfl rfl rfl rfl (by decide)).2⟩
